import Mathlib

/-!
Verification development for the calc-engine pricing pipeline.

The JavaScript sources are shallowly embedded: monetary amounts are exact
rationals (`ℚ`), and every place the source quantizes through
`PrecisionPolicy.intermediate` / `.final` / `toFixed(7)` / `toFixed(2)`
(decimal.js `toDecimalPlaces` with `ROUND_HALF_UP`, i.e. round half away
from zero) is modelled by the explicit rounding functions `q7` / `q2`
below.  decimal.js is configured with 40 significant digits; its
multiplications and divisions are treated as exact rational arithmetic,
with the quantization steps the only rounding.
-/

deriving instance DecidableEq for Except

namespace CalcSpec

/-- decimal.js `ROUND_HALF_UP`: round to the nearest integer, ties away
from zero.  For `x = ±n/d` in lowest terms with `n, d ≥ 0` this is
`±⌊(2n + d) / (2d)⌋ = ±⌊n/d + 1/2⌋`, computed with natural division so
that concrete values evaluate inside the kernel. -/
def roundHalfAwayFromZero (x : ℚ) : ℤ :=
  if 0 ≤ x.num then ((2 * x.num.natAbs + x.den) / (2 * x.den) : ℕ)
  else -((2 * x.num.natAbs + x.den) / (2 * x.den) : ℕ)

/-- Q7 quantization: `toDecimalPlaces(7, ROUND_HALF_UP)` — seven fractional
digits, ties away from zero (`PrecisionPolicy.intermediate`). -/
def q7 (x : ℚ) : ℚ := (roundHalfAwayFromZero (x * 10 ^ 7) : ℚ) / 10 ^ 7

/-- Q2 quantization: `toDecimalPlaces(2, ROUND_HALF_UP)` — two fractional
digits, ties away from zero (`PrecisionPolicy.final`). -/
def q2 (x : ℚ) : ℚ := (roundHalfAwayFromZero (x * 10 ^ 2) : ℚ) / 10 ^ 2

/-- A rational is a Q7 value (an exact multiple of `10⁻⁷`). -/
def IsQ7 (x : ℚ) : Prop := (x * 10 ^ 7).den = 1

instance (x : ℚ) : Decidable (IsQ7 x) := by unfold IsQ7; infer_instance

end CalcSpec

namespace PureEngine

open CalcSpec

/-- A line item as produced by `PureCalculationEngine.normalizeInput`:
`id`, `unitPrice` (decimal string), `quantity` (`Math.max(0, Number(...))`),
`cost` (defaulted to `unitPrice` during normalization, so always present),
`taxSetting` (uppercased, defaulted to `TAXABLE` when absent — here any
string, re-normalized at use sites exactly as the source does), and
`use_tax_eligible`. -/
structure LineItem where
  id : String
  unitPrice : ℚ
  quantity : ℚ
  cost : ℚ
  taxSetting : String
  useTaxEligible : Bool
deriving DecidableEq

/-- A modifier inside a group.  The engine reads `mod.percent || mod.value`
(percentage), `mod.fixed_amount || mod.value` (fixed) and
`group.modifiers[0].value` (margin); normalized modifiers carry the number
in `value`, which is what we embed. -/
structure Modifier where
  id : String
  value : ℚ
deriving DecidableEq

/-- `modifier_type` dispatch values of `calculateGroupAdjustment`; the
`default` case of the switch is `other`. -/
inductive MKind where
  | percentage
  | fixed
  | margin
  | other
deriving DecidableEq

/-- A modifier group as built by `groupModifiers`: the grouping key carries
eight attributes; the ones the computation reads are the resolved
`tax_setting` (a lowercase string, `taxable` / `non_taxable`), the
`modifier_type`, and the contained modifiers. -/
structure Group where
  kind : MKind
  taxSetting : String
  modifiers : List Modifier
deriving DecidableEq

/-- An entry of `state.adjustments`: the engine pushes
`{ amount: adjustment.toFixed(7), attributes }`; `adjustment` is already a
Q7 value, so `toFixed(7)` is exact formatting and `amount` equals the
adjustment; of the stored attributes only `tax_setting` is read later. -/
structure Adjustment where
  amount : ℚ
  taxSetting : String
deriving DecidableEq

/-- The immutable calculation state threaded through the pipeline
(`calculate`, step 2). -/
structure CalcState where
  baseSubtotal : ℚ
  runningSubtotal : ℚ
  adjustments : List Adjustment
  retailTaxAmount : ℚ
  useTaxAmount : ℚ
deriving DecidableEq

/-- `computeBaseSubtotal`: fold of
`sum = intermediate(sum + unitPrice * quantity)` over the line items
(normalized items always carry a quantity). -/
def computeBaseSubtotal (items : List LineItem) : ℚ :=
  items.foldl (fun sum it => q7 (sum + it.unitPrice * it.quantity)) 0

/-- Additive sum of the modifier values of a group (the loop
`totalPercent = totalPercent.plus(...)` / `totalFixed = ...`; decimal.js
addition is exact). -/
def sumValues (mods : List Modifier) : ℚ :=
  mods.foldl (fun s m => s + m.value) 0

/-- `calculateMarginAdjustment`: target margin is
`group.modifiers[0].value / 100` (only the first modifier of the group is
read; an empty group falls back to value `0`). -/
def marginOf (g : Group) : ℚ :=
  (g.modifiers.head?.elim 0 (fun m => m.value)) / 100

/-- The per-line loop of `calculateMarginAdjustment`:
`newUnitPrice = intermediate(cost / (1 - m))`,
`lineDelta = intermediate((newUnitPrice - unitPrice) * quantity)`,
`totalAdjustment = intermediate(totalAdjustment + lineDelta)`. -/
def marginAdjustment (m : ℚ) (items : List LineItem) : ℚ :=
  items.foldl
    (fun acc it =>
      let newUnitPrice := q7 (it.cost / (1 - m))
      let lineDelta := q7 ((newUnitPrice - it.unitPrice) * it.quantity)
      q7 (acc + lineDelta))
    0

/-- The only exception the embedded pure pipeline can raise:
`InvalidMarginError` from `calculateMarginAdjustment`. -/
inductive CalcErr where
  | invalidMargin
deriving DecidableEq

/-- `calculateGroupAdjustment`: dispatch on `modifier_type`.
percentage → `intermediate(basis * totalPercent / 100)`;
fixed → `intermediate(totalFixed)`;
margin → guarded `calculateMarginAdjustment` (margin must lie in `[0,1)`,
otherwise `InvalidMarginError` is thrown);
default → `new Decimal(0)`. -/
def calculateGroupAdjustment (g : Group) (basis : ℚ) (items : List LineItem) :
    Except CalcErr ℚ :=
  match g.kind with
  | .percentage => .ok (q7 (basis * sumValues g.modifiers / 100))
  | .fixed => .ok (q7 (sumValues g.modifiers))
  | .margin =>
      let m := marginOf g
      if m < 0 ∨ 1 ≤ m then .error .invalidMargin
      else .ok (marginAdjustment m items)
  | .other => .ok 0

/-- `applyModifierGroups`: sequential fold over the groups, pushing
`{ amount, attributes }` and updating
`runningSubtotal = intermediate(runningSubtotal + adjustment)`. -/
def applyModifierGroups (st : CalcState) (groups : List Group)
    (items : List LineItem) : Except CalcErr CalcState :=
  match groups with
  | [] => .ok st
  | g :: rest => do
      let adj ← calculateGroupAdjustment g st.runningSubtotal items
      applyModifierGroups
        { st with
          runningSubtotal := q7 (st.runningSubtotal + adj)
          adjustments := st.adjustments ++ [⟨adj, g.taxSetting⟩] }
        rest items

/-- Tax configuration slice read by `calculateTaxes` after
`normalizeInput`: `tax_mode` (defaulted to `RETAIL`), `tax_rate`,
`use_tax_rate` (decimal strings, converted at use time) and the
jurisdiction rates.  The engine sorts jurisdictions by `(order, code)`
before folding; we take the list already in that order (the fold adds Q7
values, so the total is order-independent anyway). -/
structure Config where
  taxMode : String
  taxRate : ℚ
  useTaxRate : ℚ
  jurisdictionRates : List ℚ
deriving DecidableEq

/-- The line-item normalization applied inside `calculateTaxes`:
`(item.tax_setting || item.taxSetting || 'TAXABLE').toUpperCase()` — an
empty (falsy) setting defaults to `TAXABLE`. -/
def normSetting (it : LineItem) : String :=
  (if it.taxSetting = "" then "TAXABLE" else it.taxSetting).toUpper

/-- One iteration of the line-item loop of `calculateTaxes`: items whose
normalized setting is exactly `TAXABLE` contribute
`intermediate(unitPrice * quantity)` to the taxable base, all other items
contribute nothing; note the source quantity default here is
`item.quantity || 1` (a zero quantity becomes 1). -/
def retailBaseStep (tb : ℚ) (it : LineItem) : ℚ :=
  if normSetting it = "TAXABLE" then
    q7 (tb + q7 (it.unitPrice * (if it.quantity = 0 then 1 else it.quantity)))
  else tb

/-- The line-item part of the taxable base in `calculateTaxes`. -/
def itemsRetailTaxableBase (items : List LineItem) : ℚ :=
  items.foldl retailBaseStep 0

/-- The adjustment part of the taxable base in `calculateTaxes`:
adjustments whose resolved `tax_setting` is `taxable` are added. -/
def retailTaxableBase (items : List LineItem) (adjs : List Adjustment) : ℚ :=
  adjs.foldl
    (fun tb a => if a.taxSetting = "taxable" then q7 (tb + a.amount) else tb)
    (itemsRetailTaxableBase items)

/-- `calculateUseTaxBase`: items flagged `use_tax_eligible` contribute
`intermediate(cost * quantity)`. -/
def calculateUseTaxBase (items : List LineItem) : ℚ :=
  items.foldl
    (fun b it =>
      if it.useTaxEligible then q7 (b + q7 (it.cost * it.quantity)) else b)
    0

/-- `calculateTaxes`: retail tax on the segregated taxable base when the
mode is `RETAIL` or `MIXED` (jurisdiction fold, or the single rate), use
tax on the cost base when the mode is `USE_TAX` or `MIXED`. -/
def calculateTaxes (st : CalcState) (cfg : Config) (items : List LineItem) :
    CalcState :=
  let tb := retailTaxableBase items st.adjustments
  let retailTax :=
    if cfg.taxMode = "RETAIL" ∨ cfg.taxMode = "MIXED" then
      if cfg.jurisdictionRates ≠ [] then
        cfg.jurisdictionRates.foldl (fun rt r => q7 (rt + q7 (tb * r))) 0
      else q7 (tb * cfg.taxRate)
    else 0
  let useTax :=
    if cfg.taxMode = "USE_TAX" ∨ cfg.taxMode = "MIXED" then
      q7 (calculateUseTaxBase items * cfg.useTaxRate)
    else 0
  { st with retailTaxAmount := retailTax, useTaxAmount := useTax }

/-- The result emitted by `buildResult` (Q2 display values; `useTax` and
`internalGrandTotal` are present only in `MIXED` mode). -/
structure EngineResult where
  subtotal : ℚ
  modifierTotal : ℚ
  retailTax : ℚ
  customerGrandTotal : ℚ
  adjustments : List ℚ
  useTax : Option ℚ
  internalGrandTotal : Option ℚ
deriving DecidableEq

/-- `buildResult`: `modifierTotal` is the Q7 fold of the adjustment
amounts, `customerGrandTotal = final(runningSubtotal + retailTaxAmount)`,
all display fields are Q2. -/
def buildResult (st : CalcState) (cfg : Config) : EngineResult :=
  let modifierTotal := st.adjustments.foldl (fun s a => q7 (s + a.amount)) 0
  let customerGrandTotal := q2 (st.runningSubtotal + st.retailTaxAmount)
  { subtotal := q2 st.baseSubtotal
    modifierTotal := q2 modifierTotal
    retailTax := q2 st.retailTaxAmount
    customerGrandTotal := customerGrandTotal
    adjustments := st.adjustments.map (fun a => q2 a.amount)
    useTax := if cfg.taxMode = "MIXED" then some (q2 st.useTaxAmount) else none
    internalGrandTotal :=
      if cfg.taxMode = "MIXED" then
        some (q2 (customerGrandTotal + st.useTaxAmount))
      else none }

/-- The initial immutable state of `calculate` (step 2). -/
def initialState (items : List LineItem) : CalcState :=
  { baseSubtotal := computeBaseSubtotal items
    runningSubtotal := computeBaseSubtotal items
    adjustments := []
    retailTaxAmount := 0
    useTaxAmount := 0 }

/-- `calculate`, steps 2–7: pre-tax groups, taxes, post-tax groups, result.
(Steps 1 and 8 — `validateInput` / `normalizeInput` and the checksum — only
restrict the inputs reaching this pure core and fingerprint its output.) -/
def calculate (items : List LineItem) (preGroups postGroups : List Group)
    (cfg : Config) : Except CalcErr EngineResult := do
  let afterPreTax ← applyModifierGroups (initialState items) preGroups items
  let afterTax := calculateTaxes afterPreTax cfg items
  let finalState ← applyModifierGroups afterTax postGroups items
  .ok (buildResult finalState cfg)

/-- Exact rational sum of stored adjustment amounts (the specification's
`Σ adjustmentsQ7`; every stored amount is a Q7 value). -/
def sumAmounts (adjs : List Adjustment) : ℚ :=
  adjs.foldl (fun s a => s + a.amount) 0

end PureEngine

namespace Compliant

open CalcSpec

/-- A line item as read by `CompliantCalculationEngine`: `unit_price`
(first of `unit_price`/`unitPrice`/`price`, defaulting to 0), `quantity`
(`item.quantity || 0`), optional `cost` (the engine tests
`item.cost !== undefined` and, for use tax, JS truthiness — the line items
carry decimal strings, so a present cost string is truthy), optional
`tax_setting`, plus the use-tax flags. -/
structure CLineItem where
  id : String
  unitPrice : ℚ
  quantity : ℚ
  cost : Option ℚ
  taxSetting : Option String
  useTaxEligible : Bool
  vendorTaxCollected : Bool
deriving DecidableEq

/-- `missing_cost_strategy` of a margin modifier (`SKIP` is the default). -/
inductive CostStrategy where
  | skip
  | useDefault
  | fail
deriving DecidableEq

/-- A modifier of the compliant engine.  The per-kind numeric fields the
engine reads are `percent`, `fixed_amount` and `target_margin` (each read
as `modifier.X || 0`-style defaults; we keep them total with 0 default),
`default_cost_pct` (`modifier.default_cost_pct || 0.7`, modelled by
substituting `0.7` for a zero value, matching JS falsiness of 0), and
`missing_cost_strategy`. -/
structure CModifier where
  id : String
  percent : ℚ
  fixedAmount : ℚ
  targetMargin : ℚ
  defaultCostPct : ℚ
  missingCostStrategy : CostStrategy
deriving DecidableEq

/-- `modifier_type` values dispatched by `applyGroup`. -/
inductive CKind where
  | percentage
  | fixed
  | margin
  | quantityKind
  | costAdjustment
deriving DecidableEq

/-- A group produced by `groupModifiers` / `sortGroups`.  Of the eight
attributes the computation reads `modifier_type`, `tax_setting`
(`group.attributes.tax_setting`, possibly absent — defaulted per use
site) and `application_type`; `key` identifies the group in the
`appliedGroups` records. -/
structure CGroup where
  key : String
  modifierType : CKind
  taxSetting : Option String
  applicationType : String
  modifiers : List CModifier
deriving DecidableEq

/-- `unitPrice * quantity` for one line (`new Decimal(unitPrice).times(item.quantity || 0)`). -/
def lineTotal (it : CLineItem) : ℚ := it.unitPrice * it.quantity

/-- The `calculateBase` normalization
`(item.tax_setting || 'TAXABLE').toUpperCase()`. -/
def normSettingBase (it : CLineItem) : String :=
  (it.taxSetting.getD "TAXABLE").toUpper

/-- Accumulator of the `calculateBase` loop. -/
structure BaseAcc where
  subtotal : ℚ
  taxableSubtotal : ℚ
  nonTaxableSubtotal : ℚ
deriving DecidableEq

/-- Result of `calculateBase` (Q7 `toFixed(7)` strings in the source). -/
structure BaseCalc where
  subtotal : ℚ
  taxableSubtotal : ℚ
  nonTaxableSubtotal : ℚ
deriving DecidableEq

/-- One iteration of the `calculateBase` loop: the line total always
feeds the subtotal; `TAXABLE` feeds the taxable partition, `NON_TAXABLE`
the non-taxable partition, and anything else defaults to taxable. -/
def baseStep (acc : BaseAcc) (it : CLineItem) : BaseAcc :=
  let lt := lineTotal it
  let s := normSettingBase it
  { subtotal := acc.subtotal + lt
    taxableSubtotal :=
      if s = "TAXABLE" then acc.taxableSubtotal + lt
      else if s = "NON_TAXABLE" then acc.taxableSubtotal
      else acc.taxableSubtotal + lt
    nonTaxableSubtotal :=
      if s = "TAXABLE" then acc.nonTaxableSubtotal
      else if s = "NON_TAXABLE" then acc.nonTaxableSubtotal + lt
      else acc.nonTaxableSubtotal }

/-- PHASE 1, `calculateBase`: one pass accumulating the subtotal and the
taxable / non-taxable partitions.  The three accumulators are quantized
to Q7 only at the end. -/
def calculateBase (items : List CLineItem) : BaseCalc :=
  let acc := items.foldl baseStep ⟨0, 0, 0⟩
  { subtotal := q7 acc.subtotal
    taxableSubtotal := q7 acc.taxableSubtotal
    nonTaxableSubtotal := q7 acc.nonTaxableSubtotal }

/-- The taxable-portion base of `applyGroup` for percentage groups:
`Σ lineTotal` over items with `(item.tax_setting || '').toUpperCase() === 'TAXABLE'`
(note: here an absent setting defaults to the empty string, not to
`TAXABLE`). -/
def taxablePortion (items : List CLineItem) : ℚ :=
  items.foldl
    (fun s it =>
      if (it.taxSetting.getD "").toUpper = "TAXABLE" then s + lineTotal it
      else s)
    0

/-- The non-taxable-portion base of `applyGroup` for percentage groups. -/
def nonTaxablePortion (items : List CLineItem) : ℚ :=
  items.foldl
    (fun s it =>
      if (it.taxSetting.getD "").toUpper = "NON_TAXABLE" then s + lineTotal it
      else s)
    0

/-- Additive combination of the percent values of a group
(`combinedRate = combinedRate.plus(modifier.percent || 0)`); the source
pre-sorts the modifiers of the group by `(chain_priority, id)`, which does
not change the sum. -/
def combinedRate (mods : List CModifier) : ℚ :=
  mods.foldl (fun s m => s + m.percent) 0

/-- Σ of `fixed_amount` over the modifiers of a fixed group. -/
def sumFixedAmounts (mods : List CModifier) : ℚ :=
  mods.foldl (fun s m => s + m.fixedAmount) 0

/-- `Σ lineTotal` over all line items: the proration base of fixed
allocations. -/
def totalBase (items : List CLineItem) : ℚ :=
  items.foldl (fun s it => s + lineTotal it) 0

/-- `Σ cost·quantity` over the line items (`item.cost || 0`): the total
cost used by margin modifiers. -/
def totalCost (items : List CLineItem) : ℚ :=
  items.foldl (fun s it => s + (it.cost.getD 0) * it.quantity) 0

/-- The last-allocation residual fix of `applyGroup` (fixed branch): add
`diff` to the final allocation, re-quantized to Q7. -/
def fixLastAllocation (diff : ℚ) : List (String × ℚ) → List (String × ℚ)
  | [] => []
  | [a] => [(a.1, q7 (a.2 + diff))]
  | a :: b :: rest => a :: fixLastAllocation diff (b :: rest)

/-- The per-line allocation block of `applyGroup` (fixed branch): when the
proration base is positive, first-pass allocations
`Q7(adjustment × lineTotal/totalBase)` followed by the residual fix on the
last allocation (`diff = Q7(adjustment − allocatedSum)`, applied when
non-zero); otherwise one zero allocation per line. -/
def fixedAllocations (adjustment : ℚ) (items : List CLineItem) :
    List (String × ℚ) :=
  let tb := totalBase items
  if 0 < tb then
    let firstPass := items.map
      (fun it => (it.id, q7 (adjustment * (lineTotal it / tb))))
    let allocatedSum := (firstPass.map (fun a => a.2)).sum
    let diff := q7 (adjustment - allocatedSum)
    if diff ≠ 0 ∧ firstPass ≠ [] then fixLastAllocation diff firstPass
    else firstPass
  else items.map (fun it => (it.id, (0 : ℚ)))

/-- Errors raised inside `applyGroup`: a margin modifier with
`missing_cost_strategy === 'FAIL'` and missing cost data throws. -/
inductive CErr where
  | missingCost
deriving DecidableEq

/-- Result record of `applyGroup`. -/
structure GroupResult where
  adjustment : ℚ
  skipped : List CModifier
  allocations : List (String × ℚ)
deriving DecidableEq

/-- The margin-modifier loop of `applyGroup`: with full cost data each
modifier adds `totalCost / (1 - target_margin) - runningTotal`; with
missing cost data the strategy decides (`SKIP` collects the modifier,
`USE_DEFAULT` estimates the cost as `runningTotal * defaultCostPct`,
`FAIL` throws).  decimal.js produces non-finite values at
`target_margin = 1`; the rational embedding is used away from that point
(our inputs never divide by zero). -/
def marginLoop (runningTotal : ℚ) (items : List CLineItem)
    (hasRequiredData : Bool) : List CModifier → Except CErr (ℚ × List CModifier)
  | [] => .ok (0, [])
  | m :: rest => do
      let (adjRest, skippedRest) ← marginLoop runningTotal items hasRequiredData rest
      if hasRequiredData then
        let targetPrice := totalCost items / (1 - m.targetMargin)
        .ok (targetPrice - runningTotal + adjRest, skippedRest)
      else
        match m.missingCostStrategy with
        | .skip => .ok (adjRest, m :: skippedRest)
        | .useDefault =>
            let defaultCostPct :=
              if m.defaultCostPct = 0 then 7 / 10 else m.defaultCostPct
            let estimatedCost := runningTotal * defaultCostPct
            let targetPrice := estimatedCost / (1 - m.targetMargin)
            .ok (targetPrice - runningTotal + adjRest, skippedRest)
        | .fail => .error .missingCost

/-- `applyGroup`: dispatch on the group's `modifier_type`.
percentage → `base * (combinedRate / 100)` where `base` is the taxable
portion, the non-taxable portion, or the running total, selected by
`(group.attributes.tax_setting || 'taxable').toLowerCase()`;
fixed → Σ fixed amounts, prorated across line items by share of
`totalBase` with first-pass Q7 rounding and the residual pinned on the
last allocation (all-zero allocations when the base is not positive);
margin → the margin loop; quantity / cost_adjustment → no-op.
The adjustment itself is returned unrounded (the caller's records apply
`toFixed(7)`). -/
def applyGroup (g : CGroup) (runningTotal : ℚ) (items : List CLineItem) :
    Except CErr GroupResult :=
  match g.modifierType with
  | .percentage =>
      let ts := (g.taxSetting.getD "taxable").toLower
      let base :=
        if ts = "taxable" then taxablePortion items
        else if ts = "non_taxable" then nonTaxablePortion items
        else runningTotal
      .ok { adjustment := base * (combinedRate g.modifiers / 100)
            skipped := []
            allocations := [] }
  | .fixed =>
      let adjustment := sumFixedAmounts g.modifiers
      .ok { adjustment := adjustment
            skipped := []
            allocations := fixedAllocations adjustment items }
  | .margin => do
      let hasRequiredData := items.all (fun it => it.cost.isSome)
      let (adjustment, skipped) ←
        marginLoop runningTotal items hasRequiredData g.modifiers
      .ok { adjustment := adjustment, skipped := skipped, allocations := [] }
  | .quantityKind => .ok { adjustment := 0, skipped := [], allocations := [] }
  | .costAdjustment => .ok { adjustment := 0, skipped := [], allocations := [] }

/-- An `appliedGroups` record: the adjustment and running total are stored
as `toFixed(7)` strings (Q7 quantized); the running total itself
accumulates the raw adjustment. -/
structure AppliedGroup where
  group : String
  adjustment : ℚ
  runningTotal : ℚ
  allocations : List (String × ℚ)
deriving DecidableEq

/-- Return value of `applyModifierGroups` (`finalAmount` and
`totalAdjustment` are `toFixed(7)` strings in the source). -/
structure ModifierResult where
  finalAmount : ℚ
  totalAdjustment : ℚ
  appliedGroups : List AppliedGroup
  skippedModifiers : List CModifier
deriving DecidableEq

/-- The loop body of PHASE 5 `applyModifierGroups`, with the running
total, the raw total adjustment and the accumulated records threaded
through. -/
def applyModifierGroupsAux (items : List CLineItem)
    (runningTotal totalAdjustment : ℚ) (applied : List AppliedGroup)
    (skipped : List CModifier) :
    List CGroup → Except CErr ModifierResult
  | [] => .ok { finalAmount := q7 runningTotal
                totalAdjustment := q7 totalAdjustment
                appliedGroups := applied
                skippedModifiers := skipped }
  | g :: rest => do
      let res ← applyGroup g runningTotal items
      let runningTotal2 := runningTotal + res.adjustment
      applyModifierGroupsAux items runningTotal2
        (totalAdjustment + res.adjustment)
        (applied ++ [{ group := g.key
                       adjustment := q7 res.adjustment
                       runningTotal := q7 runningTotal2
                       allocations := res.allocations }])
        (skipped ++ res.skipped) rest

/-- PHASE 5 `applyModifierGroups`, starting from the base subtotal. -/
def applyModifierGroups (groups : List CGroup) (baseSubtotal : ℚ)
    (items : List CLineItem) : Except CErr ModifierResult :=
  applyModifierGroupsAux items baseSubtotal 0 [] [] groups

/-- Structured `config.tax_config` (preferred configuration shape):
`default_rate`, optional `use_tax_rate` and named jurisdictions. -/
structure StructuredTaxConfig where
  defaultRate : ℚ
  useTaxRate : Option ℚ
  jurisdictions : List (String × ℚ)
deriving DecidableEq

/-- Engine configuration as read by `calculateTax`: optional structured
`tax_config`, legacy `tax_rate` / `use_tax_rate` (`|| 0` defaults) and
`tax_mode` (`|| 'RETAIL'`). -/
structure CConfig where
  taxConfig : Option StructuredTaxConfig
  taxRate : ℚ
  useTaxRate : ℚ
  taxMode : Option String
deriving DecidableEq

/-- Return record of `calculateTax` (all Q7 `toFixed(7)` strings in the
source). -/
structure CTaxResult where
  taxableBase : ℚ
  nonTaxableTotal : ℚ
  retailTax : ℚ
  subTaxes : List (String × ℚ × ℚ)
  useTaxAmount : ℚ
  useTaxBase : ℚ
  useTaxItems : List String
  taxMode : String
deriving DecidableEq

/-- The adjustment recorded for a group: `appliedGroups.find(g => g.group
=== group.key)?.adjustment || 0`. -/
def recordedAdjustment (mr : ModifierResult) (g : CGroup) : ℚ :=
  ((mr.appliedGroups.find? (fun a => a.group == g.key)).map
    (fun a => a.adjustment)).getD 0

/-- PHASE 6 `calculateTax`: resolves the rates (structured config wins,
jurisdiction rates summed into the retail rate for the no-jurisdiction
path), splits the recorded group adjustments into pre-tax taxable /
pre-tax non-taxable / post-tax buckets keyed by `application_type` and
`tax_setting` (defaults `pre_tax` and `taxable`), re-bases the taxable and
non-taxable bases when any group exists, then computes retail tax (per
jurisdiction or single rate) and use tax (cost basis of eligible items
with a present cost and no vendor-collected tax, taxed only when the rate
is positive). -/
def calculateTax (baseCalc : BaseCalc) (mr : ModifierResult)
    (items : List CLineItem) (groups : List CGroup) (cfg : CConfig) :
    CTaxResult :=
  let retailTaxRate :=
    match cfg.taxConfig with
    | some tc =>
        if tc.jurisdictions ≠ [] then
          tc.jurisdictions.foldl (fun s j => s + j.2) 0
        else tc.defaultRate
    | none => cfg.taxRate
  let useTaxRate :=
    match cfg.taxConfig with
    | some tc =>
        match tc.useTaxRate with
        | some r => if r = 0 then cfg.useTaxRate else r
        | none => cfg.useTaxRate
    | none => cfg.useTaxRate
  let taxMode := cfg.taxMode.getD "RETAIL"
  let taxablePreTaxAdjustment := groups.foldl
    (fun s g =>
      if (g.applicationType.toLower ≠ "post_tax")
          ∧ (g.taxSetting.getD "taxable").toLower = "taxable" then
        s + recordedAdjustment mr g
      else s) 0
  let nonTaxablePreTaxAdjustment := groups.foldl
    (fun s g =>
      if (g.applicationType.toLower ≠ "post_tax")
          ∧ (g.taxSetting.getD "taxable").toLower ≠ "taxable" then
        s + recordedAdjustment mr g
      else s) 0
  let retailTaxableBase :=
    if groups ≠ [] then baseCalc.taxableSubtotal + taxablePreTaxAdjustment
    else baseCalc.taxableSubtotal
  let retailNonTaxable :=
    if groups ≠ [] then baseCalc.nonTaxableSubtotal + nonTaxablePreTaxAdjustment
    else baseCalc.nonTaxableSubtotal
  let jurisdictions :=
    match cfg.taxConfig with
    | some tc => tc.jurisdictions
    | none => []
  let subTaxes :=
    if (taxMode = "RETAIL" ∨ taxMode = "MIXED") ∧ jurisdictions ≠ [] then
      jurisdictions.map (fun j => (j.1, j.2, q7 (retailTaxableBase * j.2)))
    else []
  let retailTax :=
    if taxMode = "RETAIL" ∨ taxMode = "MIXED" then
      if jurisdictions ≠ [] then
        jurisdictions.foldl (fun rt j => rt + q7 (retailTaxableBase * j.2)) 0
      else q7 (retailTaxableBase * retailTaxRate)
    else 0
  let useTaxEligibleItems :=
    items.filter
      (fun it => it.useTaxEligible ∧ it.cost.isSome ∧ ¬it.vendorTaxCollected)
  let useTaxBase :=
    if taxMode = "USE_TAX" ∨ taxMode = "MIXED" then
      useTaxEligibleItems.foldl (fun s it => s + (it.cost.getD 0) * it.quantity) 0
    else 0
  let useTax :=
    if (taxMode = "USE_TAX" ∨ taxMode = "MIXED") ∧ 0 < useTaxRate then
      q7 (useTaxBase * useTaxRate)
    else 0
  { taxableBase := q7 retailTaxableBase
    nonTaxableTotal := q7 retailNonTaxable
    retailTax := q7 retailTax
    subTaxes := subTaxes
    useTaxAmount := q7 useTax
    useTaxBase := q7 useTaxBase
    useTaxItems :=
      if taxMode = "USE_TAX" ∨ taxMode = "MIXED" then
        useTaxEligibleItems.map (fun it => it.id)
      else []
    taxMode := taxMode }

/-- The financial outputs of `calculate` read by the acceptance
scenarios.  Display values are Q2 (`toFixed(2)` on a Decimal, or
`setFinancialValue`'s `parseFloat(...).toFixed(2)` — identical on these
magnitudes). -/
structure COutputs where
  subtotal : ℚ
  useTaxBase : ℚ
  useTaxAmount : ℚ
  customerGrandTotal : ℚ
  internalGrandTotal : ℚ
deriving DecidableEq

/-- `calculate`, phases 1 and 5–7, on an input whose dependency, rule and
grouping phases have already run (`sortedGroups` is their output; it is
empty when the request carries no modifiers).  PHASE 7 computes
`grandTotalPrecise = subtotal + totalAdjustment + retailTax` and then:
in `MIXED` mode `customerGrandTotal = grandTotalPrecise.toFixed(2)` and
`internalGrandTotal = (grandTotalPrecise + useTaxAmount).toFixed(2)`;
in every other mode — including `USE_TAX` — both fields are
`grandTotalPrecise.toFixed(2)`.  The use-tax display fields are set only
in `USE_TAX` / `MIXED` modes (they keep the constructor default `0.00`
otherwise). -/
def calculate (items : List CLineItem) (sortedGroups : List CGroup)
    (cfg : CConfig) : Except CErr COutputs := do
  let baseCalc := calculateBase items
  let mr ← applyModifierGroups sortedGroups baseCalc.subtotal items
  let taxResult := calculateTax baseCalc mr items sortedGroups cfg
  let grandTotalPrecise :=
    baseCalc.subtotal + mr.totalAdjustment + taxResult.retailTax
  .ok
    { subtotal := q2 baseCalc.subtotal
      useTaxBase :=
        if taxResult.taxMode = "USE_TAX" ∨ taxResult.taxMode = "MIXED" then
          q2 taxResult.useTaxBase
        else 0
      useTaxAmount :=
        if taxResult.taxMode = "USE_TAX" ∨ taxResult.taxMode = "MIXED" then
          q2 taxResult.useTaxAmount
        else 0
      customerGrandTotal := q2 grandTotalPrecise
      internalGrandTotal :=
        if taxResult.taxMode = "MIXED" then
          q2 (grandTotalPrecise + taxResult.useTaxAmount)
        else q2 grandTotalPrecise }

end Compliant

namespace RuleEval

/-- JavaScript values flowing through `SafeRuleEvaluator`: undefined,
booleans, numbers (JS floats; the evaluator's limit behaviour is
independent of numeric semantics, so numbers are embedded as exact
rationals), strings, and plain objects (field lists). -/
inductive JSVal where
  | undef
  | boolean (b : Bool)
  | number (x : ℚ)
  | strVal (s : String)
  | obj (fields : List (String × JSVal))

/-- JS truthiness of the values above (`!left` / `if (left)`). -/
def truthy : JSVal → Bool
  | .undef => false
  | .boolean b => b
  | .number x => decide (x ≠ 0)
  | .strVal s => decide (s ≠ "")
  | .obj _ => true

/-- The pre-compiled rule AST interpreted by `SafeRuleEvaluator.evalNode`:
comparison, logical, field and literal nodes (`node.type` dispatch; an
object of any other shape throws, which the inductive type excludes by
construction — no rule is ever a code string). -/
inductive RNode where
  | literal (value : JSVal)
  | field (path : String)
  | comparison (op : String) (left : RNode) (right : RNode)
  | logical (op : String) (left : RNode) (right : RNode)

/-- Errors thrown by the evaluator. -/
inductive RuleErr where
  | depthExceeded
  | opsExceeded
  | invalidOperator
  | invalidLogical
deriving DecidableEq

/-- `getFieldValue`: split the dotted path and walk the context; a falsy
(empty) path and any miss resolve to undefined. -/
def getFieldValue (path : String) (ctx : JSVal) : JSVal :=
  if path = "" then .undef
  else
    (path.splitOn ".").foldl
      (fun v part =>
        match v with
        | .obj fs => (fs.lookup part).getD .undef
        | _ => .undef)
      ctx

/-- The whitelist of `compare`. -/
def validOps : List String := ["==", "!=", ">", ">=", "<", "<="]

/-- JS `String(v)` for the operands that can reach the string branch of
`compare` (undefined and booleans are handled earlier).  JS formats the
shortest decimal representation of its binary floats; the embedding
prints the exact rational — the claims do not depend on this branch. -/
def jsStringOf : JSVal → String
  | .strVal s => s
  | .number x => toString x
  | .boolean b => if b then "true" else "false"
  | .undef => "undefined"
  | .obj _ => "[object Object]"

/-- Type tests mirroring the `typeof` guards of `compare`. -/
def isUndef : JSVal → Bool
  | .undef => true
  | _ => false

/-- `typeof v === 'boolean'`. -/
def isBoolean : JSVal → Bool
  | .boolean _ => true
  | _ => false

/-- `typeof v === 'string'`. -/
def isString : JSVal → Bool
  | .strVal _ => true
  | _ => false

/-- JS `===` on the operands `compare` applies it to.  Objects compare by
reference; the rule context never aliases an object against itself in a
comparison, so object identity is embedded as `false`. -/
def strictEq : JSVal → JSVal → Bool
  | .undef, .undef => true
  | .boolean a, .boolean b => a == b
  | .number a, .number b => a == b
  | .strVal a, .strVal b => a == b
  | _, _ => false

/-- `SafeRuleEvaluator.compare`: operator whitelist first, then the
undefined, boolean, string and number branches, then the numeric-coercion
fallback.  After the earlier branches only object operands remain;
`Number(obj)` is NaN, so the coercion fails and the strict-equality
fallback decides.  The resource-limit claims do not depend on the boolean
values computed here. -/
def compare (l r : JSVal) (op : String) : Except RuleErr Bool :=
  if ¬ validOps.contains op then .error .invalidOperator
  else if isUndef l || isUndef r then
    if op = "==" then .ok (isUndef l && isUndef r)
    else if op = "!=" then .ok (!(isUndef l && isUndef r))
    else .ok false
  else if isBoolean l || isBoolean r then
    if op = "==" then .ok (strictEq l r)
    else if op = "!=" then .ok (!strictEq l r)
    else .ok false
  else if isString l || isString r then
    let ls := jsStringOf l
    let rs := jsStringOf r
    .ok (if op = "==" then ls == rs
         else if op = "!=" then ls != rs
         else if op = ">" then decide (rs < ls)
         else if op = ">=" then decide (rs ≤ ls)
         else if op = "<" then decide (ls < rs)
         else decide (ls ≤ rs))
  else
    match l, r with
    | .number a, .number b =>
        .ok (if op = "==" then a == b
             else if op = "!=" then a != b
             else if op = ">" then decide (b < a)
             else if op = ">=" then decide (b ≤ a)
             else if op = "<" then decide (a < b)
             else decide (a ≤ b))
    | _, _ =>
        if op = "==" then .ok (strictEq l r)
        else if op = "!=" then .ok (!strictEq l r)
        else .ok false

/-- `this.limits.maxDepth`. -/
def maxDepth : ℕ := 10

/-- `this.limits.maxOperations`. -/
def maxOperations : ℕ := 1000

/-- `SafeRuleEvaluator.evalNode`: depth guard, operation-count guard
(`this.operationCount++` threaded explicitly), then dispatch on the node
type.  Logical AND / OR short-circuit exactly as the source: a falsy AND
left yields the boolean `false`, a truthy OR left yields the boolean
`true`, otherwise the raw right value is returned.  Returns the value
together with the updated operation count. -/
def evalNode (ctx : JSVal) : RNode → ℕ → ℕ → Except RuleErr (JSVal × ℕ)
  | node, depth, ops =>
    if maxDepth < depth then .error .depthExceeded
    else
      let ops1 := ops + 1
      if maxOperations < ops1 then .error .opsExceeded
      else
        match node with
        | .comparison op l r => do
            let (lv, o1) ← evalNode ctx l (depth + 1) ops1
            let (rv, o2) ← evalNode ctx r (depth + 1) o1
            let b ← compare lv rv op
            .ok (.boolean b, o2)
        | .logical op l r =>
            if op.toUpper = "AND" then do
              let (lv, o1) ← evalNode ctx l (depth + 1) ops1
              if truthy lv then evalNode ctx r (depth + 1) o1
              else .ok (.boolean false, o1)
            else if op.toUpper = "OR" then do
              let (lv, o1) ← evalNode ctx l (depth + 1) ops1
              if truthy lv then .ok (.boolean true, o1)
              else evalNode ctx r (depth + 1) o1
            else .error .invalidLogical
        | .literal v => .ok (v, ops1)
        | .field p => .ok (getFieldValue p ctx, ops1)

/-- `SafeRuleEvaluator.evaluate`: reset the operation counter and start at
depth 0. -/
def evaluate (rule : RNode) (ctx : JSVal) : Except RuleErr (JSVal × ℕ) :=
  evalNode ctx rule 0 0

end RuleEval

namespace Post

/-- The slice of a calculation result the commit stage reads: the
idempotency key (`result.checksum`) and the aggregate id
(`result.proposalId`). -/
structure PResult where
  checksum : String
  proposalId : String
deriving DecidableEq

/-- An `outbox_events` insertion performed by
`eventOutbox.publishWithinTransaction`. -/
structure OutboxEvent where
  eventType : String
  aggregateId : String
  payloadChecksum : String
deriving DecidableEq

/-- The external state the commit stage mutates: the idempotency store,
the persisted results (the transactional result + audit write of
`dataPersister.persist`), the outbox table, the result cache, and
counters for metrics records and webhook fan-outs. -/
structure PPState where
  idempotencyStore : List (String × PResult)
  resultsTable : List PResult
  outboxTable : List OutboxEvent
  resultCache : List PResult
  metricsRecorded : ℕ
  webhooksFired : ℕ
deriving DecidableEq

/-- `IdempotencyChecker.check` — `Map.get` on the idempotency store
(`null` on a miss, here `none`). -/
def lookupStore (k : String) : List (String × PResult) → Option PResult
  | [] => none
  | (k2, v) :: rest => if k2 = k then some v else lookupStore k rest

/-- `PostProcessor.process`: check the idempotency store under
`result.checksum`; on a hit return the stored result unchanged (early
return before the transaction — no persist, no outbox insert, no cache
update, no metrics, no webhook).  On a miss run the transaction (persist,
outbox insert, cache update, metrics, webhook), then store the result
under its checksum for future idempotency. -/
def process (res : PResult) (st : PPState) : PResult × PPState :=
  match lookupStore res.checksum st.idempotencyStore with
  | some existing => (existing, st)
  | none =>
      let committed : PPState :=
        { st with
          resultsTable := st.resultsTable ++ [res]
          outboxTable := st.outboxTable ++
            [{ eventType := "calculation.completed"
               aggregateId := res.proposalId
               payloadChecksum := res.checksum }]
          resultCache := st.resultCache ++ [res]
          metricsRecorded := st.metricsRecorded + 1
          webhooksFired := st.webhooksFired + 1 }
      (res,
        { committed with
          idempotencyStore :=
            committed.idempotencyStore ++ [(res.checksum, res)] })

end Post

namespace Canonical

/-- The JSON-shaped values `CalculationResult.generateChecksum` feeds to
`JSON.stringify`: strings, integer numbers (`this.version`), and plain
objects. -/
inductive JVal where
  | jstr (s : String)
  | jnum (n : ℤ)
  | jobj (fields : List (String × JVal))

/-- Ordering/filtering of an object's serialized properties under an
array replacer, per ECMA-262 `SerializeJSONObject`: the property list is
the replacer array itself, in replacer order, keeping only keys the
object actually has. -/
def orderProps (keys : List String) (props : List (String × String)) :
    List String :=
  keys.filterMap
    (fun k => (props.lookup k).map (fun s => "\"" ++ k ++ "\":" ++ s))

mutual

/-- `JSON.stringify(value, replacer)` with an array replacer `keys`: the
replacer filters the own keys of EVERY object in the tree, not only the
top level. -/
def stringifyValue (keys : List String) : JVal → String
  | .jstr s => "\"" ++ s ++ "\""
  | .jnum n => toString n
  | .jobj fs =>
      "\x7b" ++ String.intercalate "," (orderProps keys (serializeFields keys fs))
        ++ "\x7d"

/-- Serialize each field value of an object (before replacer
filtering/ordering). -/
def serializeFields (keys : List String) :
    List (String × JVal) → List (String × String)
  | [] => []
  | (k, v) :: rest => (k, stringifyValue keys v) :: serializeFields keys rest

end

/-- The fields hashed by `CalculationResult.generateChecksum`:
`proposalId`, `version` and the five Q7 monetary values placed under
`precise`. -/
structure ChecksumFields where
  proposalId : String
  version : ℤ
  subtotalPrecise : String
  modifiersPrecise : String
  retailTaxPrecise : String
  useTaxPrecise : String
  grandTotalPrecise : String
deriving DecidableEq

/-- The canonical data object built by `generateChecksum`:
`{ proposalId, version, precise: { subtotal, modifiers, retailTax,
useTax, grandTotal } }`. -/
def checksumData (r : ChecksumFields) : JVal :=
  .jobj
    [("proposalId", .jstr r.proposalId),
     ("version", .jnum r.version),
     ("precise",
       .jobj
         [("subtotal", .jstr r.subtotalPrecise),
          ("modifiers", .jstr r.modifiersPrecise),
          ("retailTax", .jstr r.retailTaxPrecise),
          ("useTax", .jstr r.useTaxPrecise),
          ("grandTotal", .jstr r.grandTotalPrecise)])]

/-- `Object.keys(data).sort()` — the replacer array passed to
`JSON.stringify` by `canonicalize`. -/
def replacerKeys : List String := ["precise", "proposalId", "version"]

/-- The exact byte string `generateChecksum` feeds to SHA-256:
`JSON.stringify(data, Object.keys(data).sort())`.  The checksum is a
deterministic function of this payload. -/
def generateChecksumPayload (r : ChecksumFields) : String :=
  stringifyValue replacerKeys (checksumData r)

end Canonical

namespace SpecModel

/-- Modelled from the spec: the "running subtotal restricted to the
group's taxSetting partition" for a group resolved taxable — the taxable
line-item subtotal plus the previously applied taxable adjustments.
This is the base the percentage claim asserts; the Compliant engine
actually uses `Compliant.taxablePortion items`, the initial partition
with no running updates. -/
def runningTaxableBase (items : List Compliant.CLineItem)
    (prevTaxableAdjustments : List ℚ) : ℚ :=
  (Compliant.calculateBase items).taxableSubtotal + prevTaxableAdjustments.sum

end SpecModel

namespace Inputs

/-- C1 witness: one taxable line `100 × 2`, retail mode at 10 %. -/
def c1Items : List PureEngine.LineItem := [⟨"a", 100, 2, 50, "TAXABLE", false⟩]

/-- C1 witness configuration. -/
def c1Cfg : PureEngine.Config := ⟨"RETAIL", 1 / 10, 0, []⟩

/-- C1 witness: state after the (empty) pre-tax phase. -/
def c1St1 : PureEngine.CalcState := PureEngine.initialState c1Items

/-- C1 witness: state after taxes and the (empty) post-tax phase. -/
def c1St3 : PureEngine.CalcState := PureEngine.calculateTaxes c1St1 c1Cfg c1Items

/-- C2: one taxable line `100 × 1`. -/
def c2Items : List Compliant.CLineItem :=
  [⟨"a", 100, 1, none, some "TAXABLE", false, false⟩]

/-- C2: taxable percentage discount group (−10 %), applied first. -/
def c2G1 : Compliant.CGroup :=
  ⟨"g1", .percentage, some "taxable", "pre_tax", [⟨"m1", -10, 0, 0, 0, .skip⟩]⟩

/-- C2: taxable percentage fee group (+10 %), applied second. -/
def c2G2 : Compliant.CGroup :=
  ⟨"g2", .percentage, some "taxable", "pre_tax", [⟨"m2", 10, 0, 0, 0, .skip⟩]⟩

/-- C3 counterexample: one line with a zero unit price (proration base 0). -/
def c3Items : List Compliant.CLineItem := [⟨"a", 0, 1, none, none, false, false⟩]

/-- C3 counterexample: fixed group worth 25. -/
def c3Group : Compliant.CGroup :=
  ⟨"gf", .fixed, none, "pre_tax", [⟨"mf", 0, 25, 0, 0, .skip⟩]⟩

/-- C3 witness: two lines `100 × 1` and `50 × 1`. -/
def c3WItems : List Compliant.CLineItem :=
  [⟨"a", 100, 1, none, none, false, false⟩, ⟨"b", 50, 1, none, none, false, false⟩]

/-- C3 witness: fixed group worth 10, prorated 2:1 across the lines. -/
def c3WGroup : Compliant.CGroup :=
  ⟨"gw", .fixed, none, "pre_tax", [⟨"mw", 0, 10, 0, 0, .skip⟩]⟩

/-- C3 witness: the group result `applyGroup` produces — allocations
`6.6666667` and `3.3333333` summing exactly to the adjustment 10. -/
def c3WRes : Compliant.GroupResult :=
  ⟨10, [], [("a", 66666667 / 10000000), ("b", 33333333 / 10000000)]⟩

/-- C4 scenario line item: `unitPrice 0, quantity 1, cost 1000,
useTaxEligible, vendor tax not collected`. -/
def c4Items : List Compliant.CLineItem := [⟨"a", 0, 1, some 1000, none, true, false⟩]

/-- C4 scenario configuration: `USE_TAX` mode, use-tax rate `0.08`. -/
def c4Cfg : Compliant.CConfig := ⟨none, 0, 8 / 100, some "USE_TAX"⟩

/-- C5: a result with all-zero monetary fields. -/
def c5ResultA : Canonical.ChecksumFields :=
  ⟨"p1", 1, "0.0000000", "0.0000000", "0.0000000", "0.0000000", "0.0000000"⟩

/-- C5: the same proposal and version with different monetary fields
(`useTax` and `grandTotal` are `80.0000000`). -/
def c5ResultB : Canonical.ChecksumFields :=
  ⟨"p1", 1, "0.0000000", "0.0000000", "0.0000000", "80.0000000", "80.0000000"⟩

/-- C6 counterexample: a Compliant margin group whose modifier has value
150 — target margin `1.5 ≥ 1`. -/
def c6MarginGroup : Compliant.CGroup :=
  ⟨"gm", .margin, none, "pre_tax", [⟨"mm", 0, 0, 3 / 2, 0, .skip⟩]⟩

/-- C6 counterexample line items (cost 60 present on every line). -/
def c6Items : List Compliant.CLineItem := [⟨"a", 100, 1, some 60, none, false, false⟩]

/-- C6 witness line items for the Pure engine (cost 70). -/
def c6WItems : List PureEngine.LineItem := [⟨"a", 100, 1, 70, "TAXABLE", false⟩]

/-- C6 witness: invalid Pure margin group (value 150 → margin 1.5). -/
def c6WBadGroup : PureEngine.Group := ⟨.margin, "taxable", [⟨"m", 150⟩]⟩

/-- C6 witness: valid Pure margin group (value 50 → margin 0.5). -/
def c6WGoodGroup : PureEngine.Group := ⟨.margin, "taxable", [⟨"m", 50⟩]⟩

/-- C6 witness configuration. -/
def c6WCfg : PureEngine.Config := ⟨"RETAIL", 0, 0, []⟩

/-- C7 counterexample line items. -/
def c7Items : List PureEngine.LineItem := [⟨"a", 100, 1, 70, "TAXABLE", false⟩]

/-- C7 counterexample: margin group with two modifiers, values 30 and 20. -/
def c7MultiMargin : PureEngine.Group :=
  ⟨.margin, "taxable", [⟨"m1", 30⟩, ⟨"m2", 20⟩]⟩

/-- C7 counterexample: a single margin modifier carrying the additive sum
50. -/
def c7SingleMargin : PureEngine.Group := ⟨.margin, "taxable", [⟨"m", 50⟩]⟩

/-- C7 witness: two 5 % modifiers. -/
def c7WMods : List PureEngine.Modifier := [⟨"a5", 5⟩, ⟨"b5", 5⟩]

/-- C8 witness result. -/
def c8Result : Post.PResult := ⟨"abc123", "prop-1"⟩

/-- C8 witness: a commit-stage state with an empty idempotency store. -/
def c8State : Post.PPState := ⟨[], [], [], [], 0, 0⟩

/-- C10 counterexample: a line item whose `taxSetting` uppercases to the
unrecognized value `EXEMPT`. -/
def c10Item : PureEngine.LineItem := ⟨"a", 100, 1, 100, "EXEMPT", false⟩

end Inputs

namespace CalcSpec

theorem roundHalfAwayFromZero_intCast (n : ℤ) :
    roundHalfAwayFromZero (n : ℚ) = n := by
  unfold roundHalfAwayFromZero
  rw [Rat.num_intCast, Rat.den_intCast]
  have h2 : (2 * n.natAbs + 1) / (2 * 1) = n.natAbs := by omega
  rw [h2]
  rcases le_or_lt 0 n with h | h
  · have h3 : (n.natAbs : ℤ) = n := by omega
    rw [if_pos h, h3]
  · have h3 : (n.natAbs : ℤ) = -n := by omega
    rw [if_neg (not_le.mpr h), h3, neg_neg]

theorem roundHalfAwayFromZero_neg (x : ℚ) :
    roundHalfAwayFromZero (-x) = -roundHalfAwayFromZero x := by
  unfold roundHalfAwayFromZero
  rw [Rat.neg_num, Rat.neg_den, Int.natAbs_neg]
  rcases lt_trichotomy x.num 0 with h | h | h
  · rw [if_pos (by omega), if_neg (by omega), neg_neg]
  · have hk : (2 * (0 : ℤ).natAbs + x.den) / (2 * x.den) = 0 := by
      apply Nat.div_eq_of_lt
      have := x.den_pos
      simp only [Int.natAbs_zero]
      omega
    rw [h, hk]
    simp
  · rw [if_neg (by omega), if_pos (by omega)]

/-- The computable rounding agrees with the mathematical round-half-away
characterization `⌊x + 1/2⌋` on non-negative inputs. -/
theorem roundHalfAwayFromZero_nonneg_eq (x : ℚ) (hx : 0 ≤ x) :
    roundHalfAwayFromZero x = ⌊x + 1 / 2⌋ := by
  have hnum : 0 ≤ x.num := Rat.num_nonneg.mpr hx
  have hd : 0 < x.den := x.den_pos
  have hnabs : (x.num.natAbs : ℤ) = x.num := Int.natAbs_of_nonneg hnum
  unfold roundHalfAwayFromZero
  rw [if_pos hnum]
  have hdm := Nat.div_add_mod (2 * x.num.natAbs + x.den) (2 * x.den)
  have hmod : (2 * x.num.natAbs + x.den) % (2 * x.den) < 2 * x.den :=
    Nat.mod_lt _ (by omega)
  have hlow : 2 * x.den * ((2 * x.num.natAbs + x.den) / (2 * x.den))
      ≤ 2 * x.num.natAbs + x.den := by omega
  have hhigh : 2 * x.num.natAbs + x.den
      < 2 * x.den * ((2 * x.num.natAbs + x.den) / (2 * x.den)) + 2 * x.den := by
    omega
  have hlowQ : 2 * (x.den : ℚ)
        * (((2 * x.num.natAbs + x.den) / (2 * x.den) : ℕ) : ℚ)
      ≤ 2 * ((x.num.natAbs : ℕ) : ℚ) + (x.den : ℚ) := by
    exact_mod_cast hlow
  have hhighQ : 2 * ((x.num.natAbs : ℕ) : ℚ) + (x.den : ℚ)
      < 2 * (x.den : ℚ)
          * (((2 * x.num.natAbs + x.den) / (2 * x.den) : ℕ) : ℚ)
        + 2 * (x.den : ℚ) := by
    exact_mod_cast hhigh
  have hnq : ((x.num.natAbs : ℕ) : ℚ) = (x.num : ℚ) := by
    conv_rhs => rw [← hnabs]
    rw [Int.cast_natCast]
  rw [hnq] at hlowQ hhighQ
  have hden2 : (0 : ℚ) < 2 * (x.den : ℚ) := by
    have : (0 : ℚ) < (x.den : ℚ) := by exact_mod_cast hd
    linarith
  have hxeq : x + 1 / 2
      = (2 * (x.num : ℚ) + (x.den : ℚ)) / (2 * (x.den : ℚ)) := by
    conv_lhs => rw [← Rat.num_div_den x]
    have hdq : ((x.den : ℕ) : ℚ) ≠ 0 := by
      exact_mod_cast Nat.pos_iff_ne_zero.mp hd
    field_simp
    ring
  symm
  rw [Int.floor_eq_iff]
  constructor
  · rw [hxeq, le_div_iff₀ hden2, Int.cast_natCast]
    linarith
  · rw [hxeq, div_lt_iff₀ hden2, Int.cast_natCast]
    linarith

/-- `roundHalfAwayFromZero` is exactly decimal.js `ROUND_HALF_UP`:
round to the nearest integer with ties away from zero, i.e.
`⌊x + 1/2⌋` for `x ≥ 0` and `-⌊-x + 1/2⌋` for `x < 0`. -/
theorem roundHalfAwayFromZero_eq_floor (x : ℚ) :
    roundHalfAwayFromZero x
      = if 0 ≤ x then ⌊x + 1 / 2⌋ else -⌊-x + 1 / 2⌋ := by
  rcases le_or_lt 0 x with h | h
  · rw [if_pos h, roundHalfAwayFromZero_nonneg_eq x h]
  · rw [if_neg (not_le.mpr h)]
    have h2 : roundHalfAwayFromZero x = -roundHalfAwayFromZero (-x) := by
      rw [roundHalfAwayFromZero_neg, neg_neg]
    rw [h2, roundHalfAwayFromZero_nonneg_eq (-x) (by linarith)]

theorem isQ7_iff (x : ℚ) : IsQ7 x ↔ ∃ n : ℤ, x * 10 ^ 7 = (n : ℚ) := by
  constructor
  · intro h
    exact ⟨(x * 10 ^ 7).num, (Rat.den_eq_one_iff _ |>.mp h).symm⟩
  · rintro ⟨n, hn⟩
    unfold IsQ7
    rw [hn]
    exact Rat.den_intCast n

theorem isQ7_q7 (x : ℚ) : IsQ7 (q7 x) := by
  rw [isQ7_iff]
  refine ⟨roundHalfAwayFromZero (x * 10 ^ 7), ?_⟩
  unfold q7
  field_simp

theorem q7_eq_self_of_isQ7 {x : ℚ} (h : IsQ7 x) : q7 x = x := by
  rw [isQ7_iff] at h
  obtain ⟨n, hn⟩ := h
  unfold q7
  rw [hn, roundHalfAwayFromZero_intCast, ← hn]
  field_simp

theorem isQ7_zero : IsQ7 0 := by
  rw [isQ7_iff]; exact ⟨0, by norm_num⟩

theorem isQ7_add {x y : ℚ} (hx : IsQ7 x) (hy : IsQ7 y) : IsQ7 (x + y) := by
  rw [isQ7_iff] at hx hy ⊢
  obtain ⟨m, hm⟩ := hx
  obtain ⟨n, hn⟩ := hy
  exact ⟨m + n, by push_cast; rw [add_mul, hm, hn]⟩

theorem isQ7_neg {x : ℚ} (hx : IsQ7 x) : IsQ7 (-x) := by
  rw [isQ7_iff] at hx ⊢
  obtain ⟨m, hm⟩ := hx
  exact ⟨-m, by push_cast; rw [neg_mul, hm]⟩

theorem isQ7_sub {x y : ℚ} (hx : IsQ7 x) (hy : IsQ7 y) : IsQ7 (x - y) := by
  rw [sub_eq_add_neg]
  exact isQ7_add hx (isQ7_neg hy)

theorem isQ7_foldl {α : Type} (f : ℚ → α → ℚ) (hf : ∀ acc it, IsQ7 (f acc it))
    (l : List α) {init : ℚ} (h0 : IsQ7 init) : IsQ7 (l.foldl f init) := by
  induction l generalizing init with
  | nil => exact h0
  | cons a l ih => exact ih (hf init a)

theorem isQ7_list_sum {l : List ℚ} (h : ∀ x ∈ l, IsQ7 x) : IsQ7 l.sum := by
  induction l with
  | nil => exact isQ7_zero
  | cons a l ih =>
      rw [List.sum_cons]
      exact isQ7_add (h a (List.mem_cons_self a l))
        (ih fun x hx => h x (List.mem_cons_of_mem a hx))

end CalcSpec

namespace PureEngine

open CalcSpec

theorem sumAmounts_append_singleton (adjs : List Adjustment) (a : Adjustment) :
    sumAmounts (adjs ++ [a]) = sumAmounts adjs + a.amount := by
  unfold sumAmounts
  rw [List.foldl_append]
  rfl

theorem marginAdjustment_isQ7 (m : ℚ) (items : List LineItem) :
    IsQ7 (marginAdjustment m items) := by
  unfold marginAdjustment
  exact isQ7_foldl _ (fun acc it => isQ7_q7 _) items isQ7_zero

theorem computeBaseSubtotal_isQ7 (items : List LineItem) :
    IsQ7 (computeBaseSubtotal items) := by
  unfold computeBaseSubtotal
  exact isQ7_foldl _ (fun acc it => isQ7_q7 _) items isQ7_zero

theorem calculateGroupAdjustment_isQ7 {g : Group} {basis : ℚ}
    {items : List LineItem} {adj : ℚ}
    (h : calculateGroupAdjustment g basis items = .ok adj) : IsQ7 adj := by
  obtain ⟨kind, ts, mods⟩ := g
  cases kind with
  | percentage =>
      simp only [calculateGroupAdjustment, Except.ok.injEq] at h
      subst h
      exact isQ7_q7 _
  | fixed =>
      simp only [calculateGroupAdjustment, Except.ok.injEq] at h
      subst h
      exact isQ7_q7 _
  | margin =>
      simp only [calculateGroupAdjustment] at h
      split at h
      · cases h
      · simp only [Except.ok.injEq] at h
        subst h
        exact marginAdjustment_isQ7 _ _
  | other =>
      simp only [calculateGroupAdjustment, Except.ok.injEq] at h
      subst h
      exact isQ7_zero

/-- Structural invariant of `applyModifierGroups`: on success the running
subtotal advances by exactly the sum of the newly recorded Q7 adjustment
amounts (all intermediate Q7 additions are exact), and the other state
components are untouched. -/
theorem applyModifierGroups_spec {groups : List Group} {items : List LineItem}
    {st st' : CalcState} (hq : IsQ7 st.runningSubtotal)
    (h : applyModifierGroups st groups items = .ok st') :
    st'.runningSubtotal
        = st.runningSubtotal + (sumAmounts st'.adjustments - sumAmounts st.adjustments)
      ∧ IsQ7 st'.runningSubtotal
      ∧ st'.baseSubtotal = st.baseSubtotal
      ∧ st'.retailTaxAmount = st.retailTaxAmount
      ∧ st'.useTaxAmount = st.useTaxAmount := by
  induction groups generalizing st with
  | nil =>
      unfold applyModifierGroups at h
      simp only [Except.ok.injEq] at h
      subst h
      exact ⟨by ring, hq, rfl, rfl, rfl⟩
  | cons g rest ih =>
      unfold applyModifierGroups at h
      cases hadj : calculateGroupAdjustment g st.runningSubtotal items with
      | error e =>
          rw [hadj] at h
          simp only [Except.bind, Bind.bind] at h
          exact Except.noConfusion h
      | ok adj =>
          rw [hadj] at h
          simp only [Except.bind, Bind.bind] at h
          have hadjQ7 : IsQ7 adj := calculateGroupAdjustment_isQ7 hadj
          obtain ⟨h1, h2, h3, h4, h5⟩ := ih (isQ7_q7 _) h
          refine ⟨?_, h2, h3, h4, h5⟩
          rw [h1, sumAmounts_append_singleton,
            q7_eq_self_of_isQ7 (isQ7_add hq hadjQ7)]
          ring

end PureEngine

/-- C1: for every input accepted by the pure compute stage, the emitted
`customerGrandTotal` (Q2) equals `round₂` of the Q7 subtotal plus the sum
of the pre-tax adjustment amounts, the retail tax, and the sum of the
post-tax adjustment amounts, within an absolute error of `$0.01` (the
difference is in fact zero: every Q7 addition in the pipeline is exact). -/
theorem claim_C1_grand_total_conservation
    (items : List PureEngine.LineItem)
    (preGroups postGroups : List PureEngine.Group) (cfg : PureEngine.Config)
    (st1 st3 : PureEngine.CalcState)
    (h1 : PureEngine.applyModifierGroups (PureEngine.initialState items)
        preGroups items = .ok st1)
    (h3 : PureEngine.applyModifierGroups
        (PureEngine.calculateTaxes st1 cfg items) postGroups items = .ok st3) :
    |(PureEngine.buildResult st3 cfg).customerGrandTotal -
        CalcSpec.q2 (PureEngine.computeBaseSubtotal items
          + PureEngine.sumAmounts st1.adjustments
          + (PureEngine.calculateTaxes st1 cfg items).retailTaxAmount
          + (PureEngine.sumAmounts st3.adjustments
              - PureEngine.sumAmounts st1.adjustments))| ≤ 1 / 100 := by
  obtain ⟨p1, p2, p3, p4, p5⟩ :=
    PureEngine.applyModifierGroups_spec
      (PureEngine.computeBaseSubtotal_isQ7 items) h1
  obtain ⟨q1, q2', q3, q4, q5⟩ :=
    PureEngine.applyModifierGroups_spec
      (show CalcSpec.IsQ7
        (PureEngine.calculateTaxes st1 cfg items).runningSubtotal from p2) h3
  have hcgt : (PureEngine.buildResult st3 cfg).customerGrandTotal
      = CalcSpec.q2 (st3.runningSubtotal + st3.retailTaxAmount) := rfl
  have hrun : st3.runningSubtotal
      = PureEngine.computeBaseSubtotal items
        + PureEngine.sumAmounts st1.adjustments
        + (PureEngine.sumAmounts st3.adjustments
            - PureEngine.sumAmounts st1.adjustments) := by
    have hst2run : (PureEngine.calculateTaxes st1 cfg items).runningSubtotal
        = st1.runningSubtotal := rfl
    have hst2adj : (PureEngine.calculateTaxes st1 cfg items).adjustments
        = st1.adjustments := rfl
    have hinit : (PureEngine.initialState items).runningSubtotal
        = PureEngine.computeBaseSubtotal items := rfl
    have hinitadj : (PureEngine.initialState items).adjustments = [] := rfl
    rw [q1, hst2run, hst2adj, p1, hinit, hinitadj]
    have h0 : PureEngine.sumAmounts [] = 0 := rfl
    rw [h0]
    ring
  have hret : st3.retailTaxAmount
      = (PureEngine.calculateTaxes st1 cfg items).retailTaxAmount := q4
  rw [hcgt, hrun, hret]
  have : CalcSpec.q2 (PureEngine.computeBaseSubtotal items
      + PureEngine.sumAmounts st1.adjustments
      + (PureEngine.sumAmounts st3.adjustments
          - PureEngine.sumAmounts st1.adjustments)
      + (PureEngine.calculateTaxes st1 cfg items).retailTaxAmount)
      = CalcSpec.q2 (PureEngine.computeBaseSubtotal items
        + PureEngine.sumAmounts st1.adjustments
        + (PureEngine.calculateTaxes st1 cfg items).retailTaxAmount
        + (PureEngine.sumAmounts st3.adjustments
            - PureEngine.sumAmounts st1.adjustments)) := by
    congr 1
    ring
  rw [this, sub_self, abs_zero]
  norm_num

/-- C1 witness: the conservation identity instantiated on one taxable
line `100 × 2` at a 10 % retail rate with no modifier groups. -/
theorem claim_C1_witness :
    |(PureEngine.buildResult Inputs.c1St3 Inputs.c1Cfg).customerGrandTotal -
        CalcSpec.q2 (PureEngine.computeBaseSubtotal Inputs.c1Items
          + PureEngine.sumAmounts Inputs.c1St1.adjustments
          + (PureEngine.calculateTaxes Inputs.c1St1 Inputs.c1Cfg
              Inputs.c1Items).retailTaxAmount
          + (PureEngine.sumAmounts Inputs.c1St3.adjustments
              - PureEngine.sumAmounts Inputs.c1St1.adjustments))| ≤ 1 / 100 :=
  claim_C1_grand_total_conservation Inputs.c1Items [] [] Inputs.c1Cfg
    Inputs.c1St1 Inputs.c1St3 rfl rfl

namespace Compliant

open CalcSpec

theorem applyGroup_percentage (key : String) (ts : Option String)
    (appT : String) (mods : List CModifier) (rt : ℚ)
    (items : List CLineItem) :
    applyGroup ⟨key, .percentage, ts, appT, mods⟩ rt items =
      .ok { adjustment :=
              (if (ts.getD "taxable").toLower = "taxable" then
                taxablePortion items
               else if (ts.getD "taxable").toLower = "non_taxable" then
                nonTaxablePortion items
               else rt) * (combinedRate mods / 100)
            skipped := []
            allocations := [] } := rfl

/-- Accumulator-generalized form of the percentage-group record property:
on success, `applyModifierGroupsAux` appends one record per group, and
every record of a percentage group whose resolved `tax_setting` is
`taxable` (resp. `non_taxable`) stores exactly
`round₇(partition × rate / 100)` computed from the INITIAL line-item
partition — independent of the running subtotal. -/
theorem applyModifierGroupsAux_percentage_records
    (items : List CLineItem) (groups : List CGroup) :
    ∀ (rt ta : ℚ) (applied : List AppliedGroup) (skipped : List CModifier)
      (mr : ModifierResult),
      applyModifierGroupsAux items rt ta applied skipped groups = .ok mr →
      ∃ recs, mr.appliedGroups = applied ++ recs ∧
        List.Forall₂
          (fun g ag => ag.group = g.key ∧
            (g.modifierType = CKind.percentage →
              (((g.taxSetting.getD "taxable").toLower = "taxable" →
                  ag.adjustment =
                    q7 (taxablePortion items * combinedRate g.modifiers / 100)) ∧
               ((g.taxSetting.getD "taxable").toLower = "non_taxable" →
                  ag.adjustment =
                    q7 (nonTaxablePortion items * combinedRate g.modifiers / 100)))))
          groups recs := by
  induction groups with
  | nil =>
      intro rt ta applied skipped mr h
      unfold applyModifierGroupsAux at h
      simp only [Except.ok.injEq] at h
      subst h
      exact ⟨[], by simp, List.Forall₂.nil⟩
  | cons g rest ih =>
      intro rt ta applied skipped mr h
      unfold applyModifierGroupsAux at h
      cases happ : applyGroup g rt items with
      | error e =>
          rw [happ] at h
          simp only [Except.bind, Bind.bind] at h
          exact Except.noConfusion h
      | ok res =>
          rw [happ] at h
          simp only [Except.bind, Bind.bind] at h
          obtain ⟨recs, hrecs, hrel⟩ := ih _ _ _ _ _ h
          refine ⟨{ group := g.key, adjustment := q7 res.adjustment,
                    runningTotal := q7 (rt + res.adjustment),
                    allocations := res.allocations } :: recs, ?_, ?_⟩
          · rw [hrecs]
            simp
          · refine List.Forall₂.cons ⟨rfl, ?_⟩ hrel
            intro hk
            obtain ⟨gkey, gkind, gts, gapp, gmods⟩ := g
            simp only at hk
            subst hk
            rw [applyGroup_percentage] at happ
            simp only [Except.ok.injEq] at happ
            subst happ
            constructor
            · intro hts
              show q7 ((if (gts.getD "taxable").toLower = "taxable" then
                          taxablePortion items
                        else if (gts.getD "taxable").toLower = "non_taxable" then
                          nonTaxablePortion items
                        else rt) * (combinedRate gmods / 100))
                  = q7 (taxablePortion items * combinedRate gmods / 100)
              rw [if_pos hts, mul_div_assoc]
            · intro hts
              show q7 ((if (gts.getD "taxable").toLower = "taxable" then
                          taxablePortion items
                        else if (gts.getD "taxable").toLower = "non_taxable" then
                          nonTaxablePortion items
                        else rt) * (combinedRate gmods / 100))
                  = q7 (nonTaxablePortion items * combinedRate gmods / 100)
              have h1 : (gts.getD "taxable").toLower ≠ "taxable" := by
                rw [hts]; decide
              rw [if_neg h1, if_pos hts, mul_div_assoc]

end Compliant

/-- C2 (amended): in the CompliantCalculationEngine, the recorded Q7
adjustment of every percentage-kind group whose resolved `taxSetting` is
`taxable` (resp. `non_taxable`) equals `round₇(base × rate/100)` with
`rate` the additive sum of the group's modifier percent values and `base`
the taxable (resp. non-taxable) partition of the INITIAL line-item
subtotal; the base is not updated by previously applied groups (the
original claim's "running subtotal restricted to the partition" is
refuted by `claim_C2_counterexample`). -/
theorem claim_C2_percentage_partition_base
    (groups : List Compliant.CGroup) (items : List Compliant.CLineItem)
    (base : ℚ) (mr : Compliant.ModifierResult)
    (h : Compliant.applyModifierGroups groups base items = .ok mr) :
    List.Forall₂
      (fun g ag => ag.group = g.key ∧
        (g.modifierType = Compliant.CKind.percentage →
          (((g.taxSetting.getD "taxable").toLower = "taxable" →
              ag.adjustment = CalcSpec.q7 (Compliant.taxablePortion items
                * Compliant.combinedRate g.modifiers / 100)) ∧
           ((g.taxSetting.getD "taxable").toLower = "non_taxable" →
              ag.adjustment = CalcSpec.q7 (Compliant.nonTaxablePortion items
                * Compliant.combinedRate g.modifiers / 100)))))
      groups mr.appliedGroups := by
  obtain ⟨recs, hrecs, hrel⟩ :=
    Compliant.applyModifierGroupsAux_percentage_records items groups
      base 0 [] [] mr h
  rw [hrecs]
  simpa using hrel

/-- C2 witness: the amended property instantiated on one taxable −10 %
group over a single taxable line `100 × 1`. -/
theorem claim_C2_witness :
    List.Forall₂
      (fun (g : Compliant.CGroup) (ag : Compliant.AppliedGroup) =>
        ag.group = g.key ∧
        (g.modifierType = Compliant.CKind.percentage →
          (((g.taxSetting.getD "taxable").toLower = "taxable" →
              ag.adjustment = CalcSpec.q7 (Compliant.taxablePortion Inputs.c2Items
                * Compliant.combinedRate g.modifiers / 100)) ∧
           ((g.taxSetting.getD "taxable").toLower = "non_taxable" →
              ag.adjustment = CalcSpec.q7 (Compliant.nonTaxablePortion Inputs.c2Items
                * Compliant.combinedRate g.modifiers / 100)))))
      [Inputs.c2G1] [⟨"g1", -10, 90, []⟩] :=
  claim_C2_percentage_partition_base [Inputs.c2G1] Inputs.c2Items 100
    ⟨90, -10, [⟨"g1", -10, 90, []⟩], []⟩ (by with_unfolding_all rfl)

/-- C2 counterexample: two taxable percentage groups (−10 % discount then
+10 % fee) on one taxable line `100 × 1`.  The claim's base for the
second group — the running subtotal restricted to the taxable partition,
`100 − 10 = 90` — would give `round₇(90 × 10/100) = 9`; the engine records
`10` (it re-uses the initial taxable partition `100`). -/
theorem claim_C2_counterexample :
    (Compliant.applyModifierGroups [Inputs.c2G1, Inputs.c2G2] 100
        Inputs.c2Items).map (fun mr => mr.appliedGroups.map
          (fun ag => ag.adjustment)) = .ok [-10, 10]
    ∧ CalcSpec.q7 (SpecModel.runningTaxableBase Inputs.c2Items [-10]
        * Compliant.combinedRate Inputs.c2G2.modifiers / 100) = 9
    ∧ (10 : ℚ) ≠ 9 := by
  refine ⟨by with_unfolding_all rfl, by with_unfolding_all rfl, by norm_num⟩

namespace Compliant

open CalcSpec

theorem applyGroup_fixed (key : String) (ts : Option String) (appT : String)
    (mods : List CModifier) (rt : ℚ) (items : List CLineItem) :
    applyGroup ⟨key, .fixed, ts, appT, mods⟩ rt items =
      .ok { adjustment := sumFixedAmounts mods
            skipped := []
            allocations := fixedAllocations (sumFixedAmounts mods) items } := rfl

theorem sumFixedAmounts_isQ7 {mods : List CModifier}
    (h : ∀ m ∈ mods, IsQ7 m.fixedAmount) : IsQ7 (sumFixedAmounts mods) := by
  unfold sumFixedAmounts
  suffices hgen : ∀ init : ℚ, IsQ7 init →
      IsQ7 (mods.foldl (fun s m => s + m.fixedAmount) init) from
    hgen 0 isQ7_zero
  induction mods with
  | nil => intro init h0; exact h0
  | cons m rest ih =>
      intro init h0
      exact ih (fun x hx => h x (List.mem_cons_of_mem m hx))
        _ (isQ7_add h0 (h m (List.mem_cons_self m rest)))

theorem fixLastAllocation_sum {l : List (String × ℚ)} {diff : ℚ}
    (hl : l ≠ []) (hx : ∀ p ∈ l, IsQ7 p.2) (hd : IsQ7 diff) :
    ((fixLastAllocation diff l).map (fun p => p.2)).sum
      = ((l.map (fun p => p.2)).sum + diff) := by
  induction l with
  | nil => exact absurd rfl hl
  | cons a rest ih =>
      cases rest with
      | nil =>
          simp only [fixLastAllocation, List.map_cons, List.map_nil,
            List.sum_cons, List.sum_nil]
          rw [q7_eq_self_of_isQ7
            (isQ7_add (hx a (List.mem_cons_self a [])) hd)]
          ring
      | cons b rest2 =>
          simp only [fixLastAllocation, List.map_cons, List.sum_cons]
          rw [ih (by simp) (fun p hp => hx p (List.mem_cons_of_mem a hp))]
          simp only [List.map_cons, List.sum_cons]
          ring

theorem fixedAllocations_sum {adj : ℚ} {items : List CLineItem}
    (hq : IsQ7 adj) (hb : 0 < totalBase items) :
    ((fixedAllocations adj items).map (fun p => p.2)).sum = adj := by
  have hitems : items ≠ [] := by
    intro h0
    rw [h0] at hb
    simp [totalBase] at hb
  unfold fixedAllocations
  simp only [if_pos hb]
  have hfpQ7 : ∀ p ∈ items.map
      (fun it => (it.id, q7 (adj * (lineTotal it / totalBase items)))), IsQ7 p.2 := by
    intro p hp
    rw [List.mem_map] at hp
    obtain ⟨it, _, hit⟩ := hp
    rw [← hit]
    exact isQ7_q7 _
  have hsumQ7 : IsQ7 ((items.map
      (fun it => (it.id, q7 (adj * (lineTotal it / totalBase items))))).map
        (fun p => p.2)).sum := by
    apply isQ7_list_sum
    intro x hx
    rw [List.mem_map] at hx
    obtain ⟨p, hp, hpx⟩ := hx
    rw [← hpx]
    exact hfpQ7 p hp
  have hdiff : q7 (adj - ((items.map
      (fun it => (it.id, q7 (adj * (lineTotal it / totalBase items))))).map
        (fun p => p.2)).sum)
      = adj - ((items.map
      (fun it => (it.id, q7 (adj * (lineTotal it / totalBase items))))).map
        (fun p => p.2)).sum :=
    q7_eq_self_of_isQ7 (isQ7_sub hq hsumQ7)
  split
  case isTrue hcond =>
      rw [fixLastAllocation_sum hcond.2 hfpQ7
        (by rw [hdiff]; exact isQ7_sub hq hsumQ7)]
      rw [hdiff]
      ring
  case isFalse hcond =>
      rw [Decidable.not_and_iff_or_not] at hcond
      rcases hcond with hcond | hcond
      · rw [Decidable.not_not] at hcond
        rw [hdiff] at hcond
        linarith [hcond]
      · exact absurd (by simpa using hitems) hcond

end Compliant

/-- C3 (amended): for every fixed-kind modifier group whose modifier
fixed amounts are Q7 values and whose line-item proration base is
positive, the per-line allocations emitted by `applyGroup` sum exactly to
the group's adjustment at Q7 (the residual after first-pass Q7 rounding
is assigned to the last allocation).  When the proration base is zero or
negative the engine emits all-zero allocations regardless of the
adjustment (`claim_C3_counterexample`), so the original unconditional
claim fails. -/
theorem claim_C3_fixed_allocation_closure
    (key : String) (ts : Option String) (appT : String)
    (mods : List Compliant.CModifier) (rt : ℚ)
    (items : List Compliant.CLineItem) (res : Compliant.GroupResult)
    (hq : ∀ m ∈ mods, CalcSpec.IsQ7 m.fixedAmount)
    (hb : 0 < Compliant.totalBase items)
    (h : Compliant.applyGroup ⟨key, .fixed, ts, appT, mods⟩ rt items = .ok res) :
    ((res.allocations.map (fun p => p.2)).sum = res.adjustment) := by
  rw [Compliant.applyGroup_fixed] at h
  simp only [Except.ok.injEq] at h
  subst h
  exact Compliant.fixedAllocations_sum (Compliant.sumFixedAmounts_isQ7 hq) hb

/-- C3 witness: a fixed group worth 10 prorated over lines `100 × 1` and
`50 × 1` — allocations `6.6666667` and `3.3333333` sum exactly to 10. -/
theorem claim_C3_witness :
    ((Inputs.c3WRes.allocations.map (fun p => p.2)).sum
      = Inputs.c3WRes.adjustment) :=
  claim_C3_fixed_allocation_closure "gw" none "pre_tax"
    Inputs.c3WGroup.modifiers 150 Inputs.c3WItems Inputs.c3WRes
    (by with_unfolding_all decide)
    (by with_unfolding_all decide) (by with_unfolding_all rfl)

/-- C3 counterexample: a fixed group worth 25 over a single line with a
zero unit price.  The proration base is 0, the engine emits the single
allocation `0.0000000`, and the allocations sum to `0 ≠ 25` while the
group adjustment is 25 — refuting the claim for this input. -/
theorem claim_C3_counterexample :
    (Compliant.applyGroup Inputs.c3Group 0 Inputs.c3Items).map
        (fun r => (((r.allocations.map (fun p => p.2)).sum), r.adjustment))
      = .ok (0, 25)
    ∧ (0 : ℚ) ≠ 25 :=
  ⟨by with_unfolding_all rfl, by norm_num⟩

/-- C4: the use-tax acceptance scenario — one line
`{unitPrice 0, quantity 1, cost 1000, useTaxEligible, ¬vendorTaxCollected}`,
no modifiers, mode `USE_TAX`, rate `0.08`.  The engine returns
`useTaxBase = 1000.00`, `useTax = 80.00` and `customerGrandTotal = 0.00`
as the claim states, but `internalGrandTotal = 0.00`, not the claimed
`80.00`: outside `MIXED` mode, PHASE 7 copies `grandTotalPrecise` into
`internalGrandTotal` without adding the use-tax liability, contradicting
the field's own documentation ("Internal total (includes use tax)"). -/
theorem claim_C4_use_tax_scenario :
    Compliant.calculate Inputs.c4Items [] Inputs.c4Cfg =
      .ok { subtotal := 0, useTaxBase := 1000, useTaxAmount := 80,
            customerGrandTotal := 0, internalGrandTotal := 0 }
    ∧ (0 : ℚ) ≠ 80 :=
  ⟨by with_unfolding_all rfl, by norm_num⟩

/-- C5: `CalculationResult.generateChecksum` canonicalizes with
`JSON.stringify(data, Object.keys(data).sort())`.  An ARRAY replacer
filters keys at every nesting level, and none of the keys of the nested
`precise` object appear in the replacer, so every monetary field is
dropped from the hashed payload: two results that differ only in
`grandTotalPrecise` (and `useTaxPrecise`) are fed to SHA-256 as the very
same byte string and therefore receive the same checksum — refuting the
claim that results differing in a monetary field have different
checksums. -/
theorem claim_C5_checksum_drops_monetary_fields :
    Canonical.generateChecksumPayload Inputs.c5ResultA
        = Canonical.generateChecksumPayload Inputs.c5ResultB
    ∧ Inputs.c5ResultA.grandTotalPrecise ≠ Inputs.c5ResultB.grandTotalPrecise :=
  ⟨rfl, by decide⟩

namespace PureEngine

theorem calculateGroupAdjustment_invalid_margin {g : Group} (basis : ℚ)
    (items : List LineItem) (hk : g.kind = .margin)
    (hm : marginOf g < 0 ∨ 1 ≤ marginOf g) :
    calculateGroupAdjustment g basis items = .error .invalidMargin := by
  obtain ⟨kind, ts, mods⟩ := g
  simp only at hk
  subst hk
  simp only [calculateGroupAdjustment]
  rw [if_pos hm]

theorem applyModifierGroups_invalid_margin {groups : List Group}
    {items : List LineItem} (st : CalcState) {g : Group}
    (hg : g ∈ groups) (hk : g.kind = .margin)
    (hm : marginOf g < 0 ∨ 1 ≤ marginOf g) :
    applyModifierGroups st groups items = .error .invalidMargin := by
  induction groups generalizing st with
  | nil => cases hg
  | cons g0 rest ih =>
      rcases List.mem_cons.mp hg with rfl | hg2
      · unfold applyModifierGroups
        rw [calculateGroupAdjustment_invalid_margin st.runningSubtotal items hk hm]
        rfl
      · unfold applyModifierGroups
        cases hadj : calculateGroupAdjustment g0 st.runningSubtotal items with
        | error e =>
            cases e
            rfl
        | ok adj =>
            exact ih _ hg2

end PureEngine

/-- C6 (amended): in the PureCalculationEngine, any margin-kind group
whose target margin `m` (first modifier value / 100) satisfies `m < 0` or
`m ≥ 1` makes the whole computation fail with `INVALID_MARGIN` (no
partial result — the error aborts `calculate` wherever the group sits in
the pre- or post-tax sequence); for a valid `m` the group's adjustment is
the Q7 fold of `round₇((round₇(cost/(1−m)) − unitPrice) × quantity)` over
the line items.  The CompliantCalculationEngine performs no margin
validation at all (`claim_C6_counterexample`), so the original
engine-wide claim fails. -/
theorem claim_C6_margin_validation :
    (∀ (items : List PureEngine.LineItem)
        (preGroups postGroups : List PureEngine.Group)
        (cfg : PureEngine.Config) (g : PureEngine.Group),
      (g ∈ preGroups ∨ g ∈ postGroups) →
      g.kind = PureEngine.MKind.margin →
      (PureEngine.marginOf g < 0 ∨ 1 ≤ PureEngine.marginOf g) →
      PureEngine.calculate items preGroups postGroups cfg = .error .invalidMargin)
    ∧ (∀ (g : PureEngine.Group) (basis : ℚ) (items : List PureEngine.LineItem),
        g.kind = PureEngine.MKind.margin →
        0 ≤ PureEngine.marginOf g → PureEngine.marginOf g < 1 →
        PureEngine.calculateGroupAdjustment g basis items =
          .ok (PureEngine.marginAdjustment (PureEngine.marginOf g) items)) := by
  constructor
  · intro items preGroups postGroups cfg g hg hk hm
    rcases hg with hpre | hpost
    · unfold PureEngine.calculate
      rw [PureEngine.applyModifierGroups_invalid_margin _ hpre hk hm]
      rfl
    · unfold PureEngine.calculate
      cases hstage1 : PureEngine.applyModifierGroups
          (PureEngine.initialState items) preGroups items with
      | error e =>
          cases e
          rfl
      | ok st1 =>
          simp only [Except.bind, Bind.bind]
          rw [PureEngine.applyModifierGroups_invalid_margin _ hpost hk hm]
  · intro g basis items hk hm0 hm1
    obtain ⟨kind, ts, mods⟩ := g
    simp only at hk
    subst hk
    simp only [PureEngine.calculateGroupAdjustment]
    rw [if_neg (not_or.mpr ⟨not_lt.mpr hm0, not_le.mpr hm1⟩)]

/-- C6 witness: a margin group with value 150 (`m = 1.5`) aborts the Pure
engine with `INVALID_MARGIN`; a margin group with value 50 (`m = 0.5`)
yields the per-line margin adjustment. -/
theorem claim_C6_witness :
    PureEngine.calculate Inputs.c6WItems [Inputs.c6WBadGroup] [] Inputs.c6WCfg
        = .error .invalidMargin
    ∧ PureEngine.calculateGroupAdjustment Inputs.c6WGoodGroup 100 Inputs.c6WItems
        = .ok (PureEngine.marginAdjustment
            (PureEngine.marginOf Inputs.c6WGoodGroup) Inputs.c6WItems) :=
  ⟨claim_C6_margin_validation.1 Inputs.c6WItems [Inputs.c6WBadGroup] []
      Inputs.c6WCfg Inputs.c6WBadGroup (Or.inl (List.mem_singleton.mpr rfl)) rfl
      (by with_unfolding_all decide),
    claim_C6_margin_validation.2 Inputs.c6WGoodGroup 100 Inputs.c6WItems rfl
      (by with_unfolding_all decide) (by with_unfolding_all decide)⟩

/-- C6 counterexample: the CompliantCalculationEngine applies a margin
group whose target margin is `1.5` (modifier value 150, so `m ≥ 1`)
WITHOUT raising `INVALID_MARGIN`: it returns the aggregate adjustment
`60/(1 − 1.5) − 100 = −220` — refuting the claim that every computation
rejects `m ≥ 1`. -/
theorem claim_C6_counterexample :
    Compliant.applyGroup Inputs.c6MarginGroup 100 Inputs.c6Items =
      .ok { adjustment := -220, skipped := [], allocations := [] }
    ∧ (1 : ℚ) ≤ 150 / 100 :=
  ⟨by with_unfolding_all rfl, by norm_num⟩

/-- C7 (amended): for percentage- and fixed-kind groups the Pure engine's
group adjustment coincides with that of a single modifier carrying the
additive sum of the group's values; margin-kind groups instead read only
the FIRST modifier's value (`group.modifiers[0].value`), so the original
every-kind claim fails (`claim_C7_counterexample`). -/
theorem claim_C7_group_additivity
    (basis : ℚ) (items : List PureEngine.LineItem) (ts : String)
    (mods : List PureEngine.Modifier) (k : PureEngine.MKind)
    (hk : k = PureEngine.MKind.percentage ∨ k = PureEngine.MKind.fixed) :
    PureEngine.calculateGroupAdjustment ⟨k, ts, mods⟩ basis items =
      PureEngine.calculateGroupAdjustment
        ⟨k, ts, [⟨"combined", PureEngine.sumValues mods⟩]⟩ basis items := by
  have hsingle : PureEngine.sumValues [⟨"combined", PureEngine.sumValues mods⟩]
      = PureEngine.sumValues mods := by
    simp [PureEngine.sumValues]
  rcases hk with rfl | rfl
  · simp only [PureEngine.calculateGroupAdjustment, hsingle]
  · simp only [PureEngine.calculateGroupAdjustment, hsingle]

/-- C7 witness: two 5 % modifiers grouped act exactly as one 10 %
modifier. -/
theorem claim_C7_witness :
    PureEngine.calculateGroupAdjustment
        ⟨.percentage, "taxable", Inputs.c7WMods⟩ 200 [] =
      PureEngine.calculateGroupAdjustment
        ⟨.percentage, "taxable",
          [⟨"combined", PureEngine.sumValues Inputs.c7WMods⟩]⟩ 200 [] :=
  claim_C7_group_additivity 200 [] "taxable" Inputs.c7WMods .percentage
    (Or.inl rfl)

/-- C7 counterexample: a margin group with modifier values 30 and 20
(additive sum 50) adjusts by 0 on a `100 × 1` line with cost 70 (margin
0.30 → new price 100), while the single summed modifier (margin 0.50 →
new price 140) adjusts by 40 — the additive-sum property fails for
margin-kind groups, which read only the first modifier's value. -/
theorem claim_C7_counterexample :
    PureEngine.calculateGroupAdjustment Inputs.c7MultiMargin 100 Inputs.c7Items
        = .ok 0
    ∧ PureEngine.sumValues Inputs.c7MultiMargin.modifiers = 50
    ∧ PureEngine.calculateGroupAdjustment Inputs.c7SingleMargin 100
        Inputs.c7Items = .ok 40
    ∧ (0 : ℚ) ≠ 40 :=
  ⟨by with_unfolding_all rfl, by with_unfolding_all rfl,
    by with_unfolding_all rfl, by norm_num⟩

namespace Post

theorem lookupStore_append_of_none {l1 l2 : List (String × PResult)}
    {k : String} (h : lookupStore k l1 = none) :
    lookupStore k (l1 ++ l2) = lookupStore k l2 := by
  induction l1 with
  | nil => rfl
  | cons p rest ih =>
      obtain ⟨k2, v⟩ := p
      simp only [lookupStore] at h ⊢
      by_cases hk : k2 = k
      · rw [if_pos hk] at h
        cases h
      · rw [if_neg hk] at h ⊢
        exact ih h

theorem lookupStore_singleton (k : String) (v : PResult) :
    lookupStore k [(k, v)] = some v := by
  simp [lookupStore]

end Post

/-- C8: if the idempotency store already holds a result under the
submitted result's checksum, `PostProcessor.process` returns that stored
result and leaves the entire commit-stage state untouched (no result
write, no outbox insert, no cache update, no metrics, no webhook);
consequently processing the same result twice performs exactly one
result+audit write and one outbox insert, and the second response equals
the first. -/
theorem claim_C8_idempotent_commit (res : Post.PResult) (st : Post.PPState) :
    (∀ r0, Post.lookupStore res.checksum st.idempotencyStore = some r0 →
        Post.process res st = (r0, st))
    ∧ (Post.lookupStore res.checksum st.idempotencyStore = none →
        Post.process res (Post.process res st).2
            = ((Post.process res st).1, (Post.process res st).2)
        ∧ (Post.process res st).2.resultsTable.length
            = st.resultsTable.length + 1
        ∧ (Post.process res st).2.outboxTable.length
            = st.outboxTable.length + 1
        ∧ (Post.process res st).2.webhooksFired = st.webhooksFired + 1
        ∧ (Post.process res st).1 = res) := by
  constructor
  · intro r0 h
    unfold Post.process
    rw [h]
  · intro h
    have hfirst : Post.process res st
        = (res,
          { idempotencyStore := st.idempotencyStore ++ [(res.checksum, res)]
            resultsTable := st.resultsTable ++ [res]
            outboxTable := st.outboxTable ++
              [{ eventType := "calculation.completed"
                 aggregateId := res.proposalId
                 payloadChecksum := res.checksum }]
            resultCache := st.resultCache ++ [res]
            metricsRecorded := st.metricsRecorded + 1
            webhooksFired := st.webhooksFired + 1 }) := by
      unfold Post.process
      rw [h]
    refine ⟨?_, ?_, ?_, ?_, ?_⟩
    · rw [hfirst]
      unfold Post.process
      rw [Post.lookupStore_append_of_none h, Post.lookupStore_singleton]
    · rw [hfirst]
      simp
    · rw [hfirst]
      simp
    · rw [hfirst]
    · rw [hfirst]

/-- C8 witness: processing a result twice from an empty commit-stage
state — the second call returns the first response and state unchanged,
with exactly one persisted result and one outbox event. -/
theorem claim_C8_witness :
    Post.process Inputs.c8Result (Post.process Inputs.c8Result Inputs.c8State).2
        = ((Post.process Inputs.c8Result Inputs.c8State).1,
           (Post.process Inputs.c8Result Inputs.c8State).2)
    ∧ (Post.process Inputs.c8Result Inputs.c8State).2.resultsTable.length
        = Inputs.c8State.resultsTable.length + 1
    ∧ (Post.process Inputs.c8Result Inputs.c8State).2.outboxTable.length
        = Inputs.c8State.outboxTable.length + 1
    ∧ (Post.process Inputs.c8Result Inputs.c8State).2.webhooksFired
        = Inputs.c8State.webhooksFired + 1
    ∧ (Post.process Inputs.c8Result Inputs.c8State).1 = Inputs.c8Result :=
  (claim_C8_idempotent_commit Inputs.c8Result Inputs.c8State).2 rfl

namespace RuleEval

theorem evalNode_literal (ctx : JSVal) (val : JSVal) (depth ops : ℕ) :
    evalNode ctx (.literal val) depth ops =
      if maxDepth < depth then .error .depthExceeded
      else if maxOperations < ops + 1 then .error .opsExceeded
      else .ok (val, ops + 1) := rfl

theorem evalNode_field (ctx : JSVal) (p : String) (depth ops : ℕ) :
    evalNode ctx (.field p) depth ops =
      if maxDepth < depth then .error .depthExceeded
      else if maxOperations < ops + 1 then .error .opsExceeded
      else .ok (getFieldValue p ctx, ops + 1) := rfl

theorem evalNode_comparison (ctx : JSVal) (op : String) (l r : RNode)
    (depth ops : ℕ) :
    evalNode ctx (.comparison op l r) depth ops =
      if maxDepth < depth then .error .depthExceeded
      else if maxOperations < ops + 1 then .error .opsExceeded
      else
        (evalNode ctx l (depth + 1) (ops + 1)).bind fun p1 =>
        (evalNode ctx r (depth + 1) p1.2).bind fun p2 =>
        (compare p1.1 p2.1 op).bind fun b =>
        .ok (.boolean b, p2.2) := rfl

theorem evalNode_logical (ctx : JSVal) (op : String) (l r : RNode)
    (depth ops : ℕ) :
    evalNode ctx (.logical op l r) depth ops =
      if maxDepth < depth then .error .depthExceeded
      else if maxOperations < ops + 1 then .error .opsExceeded
      else if op.toUpper = "AND" then
        (evalNode ctx l (depth + 1) (ops + 1)).bind fun p1 =>
          if truthy p1.1 then evalNode ctx r (depth + 1) p1.2
          else .ok (.boolean false, p1.2)
      else if op.toUpper = "OR" then
        (evalNode ctx l (depth + 1) (ops + 1)).bind fun p1 =>
          if truthy p1.1 then .ok (.boolean true, p1.2)
          else evalNode ctx r (depth + 1) p1.2
      else .error .invalidLogical := rfl

theorem evalNode_depth_exceeded (ctx : JSVal) (node : RNode)
    (depth ops : ℕ) (h : maxDepth < depth) :
    evalNode ctx node depth ops = .error .depthExceeded := by
  cases node with
  | literal val => rw [evalNode_literal, if_pos h]
  | field p => rw [evalNode_field, if_pos h]
  | comparison op l r => rw [evalNode_comparison, if_pos h]
  | logical op l r => rw [evalNode_logical, if_pos h]

theorem evalNode_ops_exceeded (ctx : JSVal) (node : RNode) (depth ops : ℕ)
    (hd : depth ≤ maxDepth) (ho : maxOperations ≤ ops) :
    evalNode ctx node depth ops = .error .opsExceeded := by
  have hlt : maxOperations < ops + 1 := by omega
  cases node with
  | literal val => rw [evalNode_literal, if_neg (not_lt.mpr hd), if_pos hlt]
  | field p => rw [evalNode_field, if_neg (not_lt.mpr hd), if_pos hlt]
  | comparison op l r =>
      rw [evalNode_comparison, if_neg (not_lt.mpr hd), if_pos hlt]
  | logical op l r =>
      rw [evalNode_logical, if_neg (not_lt.mpr hd), if_pos hlt]

theorem evalNode_ok_bound (ctx : JSVal) (node : RNode) :
    ∀ (depth ops : ℕ) (v : JSVal) (o : ℕ),
      evalNode ctx node depth ops = .ok (v, o) →
      ops < o ∧ o ≤ maxOperations := by
  induction node with
  | literal val =>
      intro depth ops v o h
      rw [evalNode_literal] at h
      by_cases hd : maxDepth < depth
      · rw [if_pos hd] at h; cases h
      · rw [if_neg hd] at h
        by_cases ho : maxOperations < ops + 1
        · rw [if_pos ho] at h; cases h
        · rw [if_neg ho] at h
          simp only [Except.ok.injEq, Prod.mk.injEq] at h
          obtain ⟨h1, h2⟩ := h
          have ho2 : ¬ (1000 < ops + 1) := ho
          exact ⟨by omega, show o ≤ 1000 by omega⟩
  | field p =>
      intro depth ops v o h
      rw [evalNode_field] at h
      by_cases hd : maxDepth < depth
      · rw [if_pos hd] at h; cases h
      · rw [if_neg hd] at h
        by_cases ho : maxOperations < ops + 1
        · rw [if_pos ho] at h; cases h
        · rw [if_neg ho] at h
          simp only [Except.ok.injEq, Prod.mk.injEq] at h
          obtain ⟨h1, h2⟩ := h
          have ho2 : ¬ (1000 < ops + 1) := ho
          exact ⟨by omega, show o ≤ 1000 by omega⟩
  | comparison op l r ihl ihr =>
      intro depth ops v o h
      rw [evalNode_comparison] at h
      by_cases hd : maxDepth < depth
      · rw [if_pos hd] at h; cases h
      · rw [if_neg hd] at h
        by_cases ho : maxOperations < ops + 1
        · rw [if_pos ho] at h; cases h
        · rw [if_neg ho] at h
          cases hl : evalNode ctx l (depth + 1) (ops + 1) with
          | error e =>
              rw [hl] at h
              simp only [Except.bind] at h
              cases h
          | ok p1 =>
              rw [hl] at h
              simp only [Except.bind] at h
              cases hr : evalNode ctx r (depth + 1) p1.2 with
              | error e =>
                  rw [hr] at h
                  simp only [Except.bind] at h
                  cases h
              | ok p2 =>
                  rw [hr] at h
                  simp only [Except.bind] at h
                  cases hc : compare p1.1 p2.1 op with
                  | error e =>
                      rw [hc] at h
                      simp only [Except.bind] at h
                      cases h
                  | ok b =>
                      rw [hc] at h
                      simp only [Except.bind, Except.ok.injEq,
                        Prod.mk.injEq] at h
                      obtain ⟨h1, h2⟩ := h
                      obtain ⟨hb1, hb2⟩ := ihl _ _ _ _ (by rw [hl])
                      obtain ⟨hc1, hc2⟩ := ihr _ _ _ _ (by rw [hr])
                      omega
  | logical op l r ihl ihr =>
      intro depth ops v o h
      rw [evalNode_logical] at h
      by_cases hd : maxDepth < depth
      · rw [if_pos hd] at h; cases h
      · rw [if_neg hd] at h
        by_cases ho : maxOperations < ops + 1
        · rw [if_pos ho] at h; cases h
        · rw [if_neg ho] at h
          by_cases hand : op.toUpper = "AND"
          · rw [if_pos hand] at h
            cases hl : evalNode ctx l (depth + 1) (ops + 1) with
            | error e =>
                rw [hl] at h
                simp only [Except.bind] at h
                cases h
            | ok p1 =>
                rw [hl] at h
                simp only [Except.bind] at h
                obtain ⟨hb1, hb2⟩ := ihl _ _ _ _ (by rw [hl])
                by_cases ht : truthy p1.1
                · rw [if_pos ht] at h
                  obtain ⟨hc1, hc2⟩ := ihr _ _ _ _ h
                  omega
                · rw [if_neg ht] at h
                  simp only [Except.ok.injEq, Prod.mk.injEq] at h
                  obtain ⟨h1, h2⟩ := h
                  omega
          · rw [if_neg hand] at h
            by_cases hor : op.toUpper = "OR"
            · rw [if_pos hor] at h
              cases hl : evalNode ctx l (depth + 1) (ops + 1) with
              | error e =>
                  rw [hl] at h
                  simp only [Except.bind] at h
                  cases h
              | ok p1 =>
                  rw [hl] at h
                  simp only [Except.bind] at h
                  obtain ⟨hb1, hb2⟩ := ihl _ _ _ _ (by rw [hl])
                  by_cases ht : truthy p1.1
                  · rw [if_pos ht] at h
                    simp only [Except.ok.injEq, Prod.mk.injEq] at h
                    obtain ⟨h1, h2⟩ := h
                    omega
                  · rw [if_neg ht] at h
                    obtain ⟨hc1, hc2⟩ := ihr _ _ _ _ h
                    omega
            · rw [if_neg hor] at h
              cases h

end RuleEval

/-- C9: the safe rule evaluator is a structural interpreter over the
comparison / logical / field / literal AST (by construction it never
evaluates a string as code), and it aborts with an error — rather than
continuing — as soon as the recursion depth exceeds 10 or the operation
count of one evaluation exceeds 1000: evaluation at depth > 10 returns
`depthExceeded` for every node; evaluation with 1000 operations already
consumed returns `opsExceeded`; and every successful evaluation strictly
advances the count while keeping it ≤ 1000. -/
theorem claim_C9_rule_eval_limits :
    (∀ (ctx : RuleEval.JSVal) (node : RuleEval.RNode) (depth ops : ℕ),
      10 < depth →
      RuleEval.evalNode ctx node depth ops = .error .depthExceeded)
    ∧ (∀ (ctx : RuleEval.JSVal) (node : RuleEval.RNode) (depth ops : ℕ),
        depth ≤ 10 → 1000 ≤ ops →
        RuleEval.evalNode ctx node depth ops = .error .opsExceeded)
    ∧ (∀ (ctx : RuleEval.JSVal) (node : RuleEval.RNode) (depth ops : ℕ)
        (v : RuleEval.JSVal) (o : ℕ),
        RuleEval.evalNode ctx node depth ops = .ok (v, o) →
        ops < o ∧ o ≤ 1000) :=
  ⟨fun ctx node depth ops h =>
      RuleEval.evalNode_depth_exceeded ctx node depth ops h,
   fun ctx node depth ops hd ho =>
      RuleEval.evalNode_ops_exceeded ctx node depth ops hd ho,
   fun ctx node depth ops v o h =>
      RuleEval.evalNode_ok_bound ctx node depth ops v o h⟩

/-- C9 witness: a literal node at depth 11 aborts with `depthExceeded`;
the same node with 1000 operations already counted aborts with
`opsExceeded`; a successful evaluation from a fresh counter uses one
operation (`0 < 1 ≤ 1000`). -/
theorem claim_C9_witness :
    RuleEval.evalNode .undef (.literal (.boolean true)) 11 0
        = .error .depthExceeded
    ∧ RuleEval.evalNode .undef (.literal (.boolean true)) 0 1000
        = .error .opsExceeded
    ∧ (0 < 1 ∧ 1 ≤ 1000) :=
  ⟨claim_C9_rule_eval_limits.1 .undef (.literal (.boolean true)) 11 0
      (by omega),
   claim_C9_rule_eval_limits.2.1 .undef (.literal (.boolean true)) 0 1000
      (by omega) (by omega),
   claim_C9_rule_eval_limits.2.2 .undef (.literal (.boolean true)) 0 0
      (.boolean true) 1 rfl⟩

namespace Compliant

theorem foldl_baseStep_taxable (items : List CLineItem) :
    ∀ acc : BaseAcc,
      (items.foldl baseStep acc).taxableSubtotal
        = acc.taxableSubtotal
          + ((items.filter
              (fun it => !(normSettingBase it == "NON_TAXABLE"))).map
                lineTotal).sum := by
  induction items with
  | nil => intro acc; simp
  | cons it rest ih =>
      intro acc
      by_cases hs : normSettingBase it = "NON_TAXABLE"
      · have hfilter : ((it :: rest).filter
            (fun x => !(normSettingBase x == "NON_TAXABLE")))
            = rest.filter (fun x => !(normSettingBase x == "NON_TAXABLE")) := by
          simp [List.filter_cons, hs]
        have hstep : (baseStep acc it).taxableSubtotal = acc.taxableSubtotal := by
          simp only [baseStep]
          rw [if_neg (by rw [hs]; decide), if_pos hs]
        rw [hfilter, List.foldl_cons, ih, hstep]
      · have hfilter : ((it :: rest).filter
            (fun x => !(normSettingBase x == "NON_TAXABLE")))
            = it :: rest.filter (fun x => !(normSettingBase x == "NON_TAXABLE")) := by
          simp [List.filter_cons, hs]
        have hstep : (baseStep acc it).taxableSubtotal
            = acc.taxableSubtotal + lineTotal it := by
          simp only [baseStep]
          by_cases ht : normSettingBase it = "TAXABLE"
          · rw [if_pos ht]
          · rw [if_neg ht, if_neg hs]
        rw [hfilter, List.foldl_cons, ih, hstep, List.map_cons, List.sum_cons]
        ring

end Compliant

namespace PureEngine

theorem foldl_retailBaseStep_filter (items : List LineItem) :
    ∀ tb : ℚ,
      items.foldl retailBaseStep tb
        = (items.filter (fun it => normSetting it == "TAXABLE")).foldl
            retailBaseStep tb := by
  induction items with
  | nil => intro tb; rfl
  | cons it rest ih =>
      intro tb
      by_cases hs : normSetting it = "TAXABLE"
      · have hfilter : ((it :: rest).filter
            (fun x => normSetting x == "TAXABLE"))
            = it :: rest.filter (fun x => normSetting x == "TAXABLE") := by
          simp [List.filter_cons, hs]
        rw [hfilter, List.foldl_cons, List.foldl_cons, ih]
      · have hfilter : ((it :: rest).filter
            (fun x => normSetting x == "TAXABLE"))
            = rest.filter (fun x => normSetting x == "TAXABLE") := by
          simp [List.filter_cons, hs]
        have hstep : retailBaseStep tb it = tb := by
          simp [retailBaseStep, hs]
        rw [hfilter, List.foldl_cons, hstep, ih]

end PureEngine

/-- C10 (amended): a line item whose `taxSetting` is absent, or whose
setting uppercases to something other than `TAXABLE` / `NON_TAXABLE`, is
classified TAXABLE in the CompliantCalculationEngine's base-subtotal
partition: the taxable partition is exactly the Q7 sum of the line
totals of all items not explicitly `NON_TAXABLE`.  In the
PureCalculationEngine's retail-taxable base, however, only items whose
normalized setting equals `TAXABLE` exactly contribute (absent settings
default to `TAXABLE` and are included, but an unrecognized setting is
EXCLUDED — `claim_C10_counterexample` — so the original claim's
"included in the retail-taxable base" fails). -/
theorem claim_C10_tax_setting_default :
    (∀ items : List Compliant.CLineItem,
      (Compliant.calculateBase items).taxableSubtotal
        = CalcSpec.q7 (((items.filter
            (fun it => !(Compliant.normSettingBase it == "NON_TAXABLE"))).map
              Compliant.lineTotal).sum))
    ∧ (∀ items : List PureEngine.LineItem,
        PureEngine.itemsRetailTaxableBase items
          = PureEngine.itemsRetailTaxableBase
              (items.filter (fun it => PureEngine.normSetting it == "TAXABLE"))) := by
  constructor
  · intro items
    show CalcSpec.q7 ((items.foldl Compliant.baseStep ⟨0, 0, 0⟩).taxableSubtotal)
        = _
    rw [Compliant.foldl_baseStep_taxable items ⟨0, 0, 0⟩]
    norm_num
  · intro items
    exact PureEngine.foldl_retailBaseStep_filter items 0

/-- C10 counterexample: a line item with `taxSetting = "EXEMPT"` (price
100 × 1).  The claim says its line total is included in the
retail-taxable base; the PureCalculationEngine's `calculateTaxes`
contributes it nothing — the base is `0`, not the `100` inclusion would
give. -/
theorem claim_C10_counterexample :
    PureEngine.itemsRetailTaxableBase [Inputs.c10Item] = 0
    ∧ PureEngine.normSetting Inputs.c10Item = "EXEMPT"
    ∧ PureEngine.normSetting Inputs.c10Item ≠ "TAXABLE"
    ∧ PureEngine.normSetting Inputs.c10Item ≠ "NON_TAXABLE"
    ∧ CalcSpec.q7 (0 + CalcSpec.q7 (Inputs.c10Item.unitPrice
        * Inputs.c10Item.quantity)) = 100
    ∧ (0 : ℚ) ≠ 100 :=
  ⟨by with_unfolding_all rfl, by with_unfolding_all rfl,
   by with_unfolding_all decide, by with_unfolding_all decide,
   by with_unfolding_all rfl, by norm_num⟩
